import Mathlib

/-!
# Verification of the Stealth Launch Detection Pipeline Orchestrator

Shallow embedding of the detection-pipeline core of `mcp_server_stdio.py`
(class `MCPStdioServer`): the URL candidate extractor, the enrichment loop,
the batch scoring interpreter, the persistence sink, the alert dispatcher and
the pipeline coordinator, together with proofs about the claims of the
specification.

Conventions of the embedding:
* Python strings are `List Char` (`Str`); all scanning is over character
  lists, restricted to the ASCII behaviour of the regexes that the source
  uses (`re.search`, `re.findall`, `str.title`, `str.strip`).
* External collaborators (Tavily search, aiohttp fetch, the Nimble parser,
  the OpenAI chat call, SQLite, the Slack webhook) are modelled as oracle
  outcomes supplied to the handlers; the handlers' own control flow (key
  checks, status checks, exception handlers, formatting) is translated from
  the source.
* `json.loads` of the batch-scorer response belongs to the excluded schema
  layer; its possible results are enumerated by `BatchScoreOutcome`
  (a well-formed JSON array of objects, a non-JSON text, a JSON value of the
  wrong shape whose traversal raises and is caught by the generic handler,
  or an API exception).
* Python floats are modelled as rationals; `f"{x:.2f}"` is modelled by
  round-half-to-even decimal rounding, which agrees with CPython on the
  two-decimal values in scope.
* The only statement in the pipeline body that can raise an uncaught
  exception is `float(...)` on the regex capture; it is modelled by `PyExn`.
-/

set_option maxRecDepth 40000
set_option maxHeartbeats 1000000

abbrev Str := List Char

/-- Coerce a Lean string literal to the character-list representation. -/
def str (s : String) : Str := s.data

/-- Python whitespace class `\s` restricted to ASCII. -/
def pySpace (c : Char) : Bool :=
  c == ' ' || c == '\t' || c == '\n' || c == '\r' ||
    c == Char.ofNat 11 || c == Char.ofNat 12

/-- Python `needle in hay` on strings: substring containment. -/
def sub (needle hay : Str) : Bool :=
  hay.tails.any (fun t => needle.isPrefixOf t)

/-- Python `s.strip()` restricted to ASCII whitespace. -/
def pyStrip (s : Str) : Str :=
  ((s.dropWhile pySpace).reverse.dropWhile pySpace).reverse

/-- `re.search(re.escape(lit) + "(X+)", s)` for a one-character class `X`
given by `keep`: the first position where the literal is followed by at
least one kept character; returns the greedy capture. -/
def reSearchCapture (lit : Str) (keep : Char → Bool) : Str → Option Str
  | [] => none
  | c :: rest =>
    if lit.isPrefixOf (c :: rest) then
      let cap := ((c :: rest).drop lit.length).takeWhile keep
      if cap.isEmpty then reSearchCapture lit keep rest else some cap
    else reSearchCapture lit keep rest

/-- The capture class `[\d.]` of the likelihood regex. -/
def likChar (c : Char) : Bool := c.isDigit || c == '.'

/-- The capture class `[^\n]` of the `Confidence:`/`Reasoning:`/field regexes. -/
def lineChar (c : Char) : Bool := !(c == '\n')

/-- ASCII letter test (Python `str.title` on the ASCII field names in scope). -/
def isAsciiAlpha (c : Char) : Bool :=
  (decide (97 ≤ c.toNat) && decide (c.toNat ≤ 122)) ||
    (decide (65 ≤ c.toNat) && decide (c.toNat ≤ 90))

def asciiUpper (c : Char) : Char :=
  if 97 ≤ c.toNat ∧ c.toNat ≤ 122 then Char.ofNat (c.toNat - 32) else c

def asciiLower (c : Char) : Char :=
  if 65 ≤ c.toNat ∧ c.toNat ≤ 90 then Char.ofNat (c.toNat + 32) else c

def pyTitleGo : Bool → Str → Str
  | _, [] => []
  | prevAlpha, c :: r =>
    (if isAsciiAlpha c then (if prevAlpha then asciiLower c else asciiUpper c) else c)
      :: pyTitleGo (isAsciiAlpha c) r

/-- Python `s.title()` restricted to ASCII. -/
def pyTitle (s : Str) : Str := pyTitleGo false s

/-- Decimal rendering of a natural number. -/
def natToStr (n : Nat) : Str := (Nat.repr n).data

/-- Python `l[:n]` for a possibly negative `n`. -/
def pyTake {α : Type} (n : Int) (l : List α) : List α :=
  l.take (if 0 ≤ n then n.toNat else l.length - n.natAbs)

def digitsToNat (l : Str) : Nat :=
  l.foldl (fun a c => 10 * a + (c.toNat - 48)) 0

/-- CPython `float(s)` restricted to the strings the likelihood regex can
capture, i.e. non-empty strings of digits and dots: valid iff there is at
most one dot and at least one digit. -/
def pyFloatOfCapture (s : Str) : Option ℚ :=
  match s.splitOn '.' with
  | [d] => if d.isEmpty then none else some (mkRat (digitsToNat d) 1)
  | [a, b] =>
    if a.isEmpty && b.isEmpty then none
    else some (mkRat (digitsToNat a * 10 ^ b.length + digitsToNat b) (10 ^ b.length))
  | _ => none

/-- `100 * q` rounded half to even, computed on numerator and denominator. -/
def rhe100 (q : ℚ) : Int :=
  let N : Int := q.num * 100
  let d : Int := (q.den : Int)
  let f : Int := N.fdiv d
  let r2 : Int := 2 * (N - f * d)
  if r2 < d then f else if d < r2 then f + 1 else if f % 2 = 0 then f else f + 1

/-- `f"{x:.2f}"`: two-decimal fixed-point rendering (CPython rounds the
binary double half to even; on the values in scope this agrees with decimal
round-half-to-even on the rational). -/
def fmt2 (q : ℚ) : Str :=
  let m : Int := rhe100 q
  let a : Nat := m.natAbs
  (if m < 0 then ['-'] else []) ++ natToStr (a / 100) ++ ['.'] ++
    (if a % 100 < 10 then ['0'] else []) ++ natToStr (a % 100)

/-- `s[:n]` followed by `'...' if len(s) > n else ''`. -/
def pyClip (n : Nat) (s : Str) : Str :=
  s.take n ++ (if n < s.length then str "..." else [])

/-- The text after the first occurrence of `sep` (none if absent). -/
def afterFirstSub (sep : Str) : Str → Option Str
  | [] => none
  | c :: rest =>
    if sep.isPrefixOf (c :: rest) then some ((c :: rest).drop sep.length)
    else afterFirstSub sep rest

def afterLastSubGo (sep : Str) : Nat → Str → Str
  | 0, s => s
  | fuel + 1, s =>
    match afterFirstSub sep s with
    | none => s
    | some rest => afterLastSubGo sep fuel rest

/-- Python `s.split(sep)[-1]`: the text after the last occurrence of `sep`
(`s` itself when `sep` does not occur). -/
def afterLastSub (sep s : Str) : Str := afterLastSubGo sep (s.length + 1) s

/-! ## URL candidate extraction (`_extract_urls_from_search_results`) -/

/-- Characters excluded by the URL regex body class
`[^\s<>"{}|\\^`+backtick+`[\]]` (written by character code to keep the
source set exact). -/
def urlChar (c : Char) : Bool :=
  !(pySpace c || [60, 62, 34, 123, 125, 124, 92, 94, 96, 91, 93].contains c.toNat)

/-- One attempted match of `https?://[^...]+` at the head of `s`; on success
returns the matched URL and the rest of the input after it (the optional
`s` of `https?` is greedy, so the long scheme is preferred when present). -/
def tryUrlAt (s : Str) : Option (Str × Str) :=
  if (str "https://").isPrefixOf s then
    if ((s.drop 8).takeWhile urlChar).isEmpty then none
    else some (str "https://" ++ (s.drop 8).takeWhile urlChar, (s.drop 8).dropWhile urlChar)
  else if (str "http://").isPrefixOf s then
    if ((s.drop 7).takeWhile urlChar).isEmpty then none
    else some (str "http://" ++ (s.drop 7).takeWhile urlChar, (s.drop 7).dropWhile urlChar)
  else none

def scanUrlsGo : Nat → Str → List Str
  | 0, _ => []
  | _ + 1, [] => []
  | fuel + 1, c :: rest =>
    match tryUrlAt (c :: rest) with
    | some (u, r) => u :: scanUrlsGo fuel r
    | none => scanUrlsGo fuel rest

/-- `re.findall(r'https?://[^\s<>"...]+', text)`: the non-overlapping URL
matches, in order. -/
def scanUrls (s : Str) : List Str := scanUrlsGo s.length s

/-- The fixed allow-list of the extractor (13 domains; the search tool's own
list additionally has recode.net and mashable.com, but the extractor does
not). -/
def allowedDomains : List Str :=
  [str "techcrunch.com", str "theverge.com", str "wired.com", str "arstechnica.com",
   str "ycombinator.com", str "betalist.com", str "venturebeat.com", str "engadget.com",
   str "gizmodo.com", str "techradar.com", str "zdnet.com", str "cnet.com",
   str "producthunt.com"]

/-- `any(domain in url for domain in [...])`: substring containment of an
allow-listed domain anywhere in the URL. -/
def isAllowedUrl (u : Str) : Bool := allowedDomains.any (fun d => sub d u)

/-- `_extract_urls_from_search_results`: scan, filter by domain substring,
truncate to 10.  The source appends each passing URL to `filtered_urls`
without any duplicate check. -/
def extractUrls (text : Str) : List Str :=
  ((scanUrls text).foldl (fun acc u => if isAllowedUrl u then acc ++ [u] else acc) []).take 10

example : pyTitle (str "pricing") = str "Pricing" := by decide

example :
    extractUrls (str "see https://techcrunch.com/a and https://example.org/b now") =
      [str "https://techcrunch.com/a"] := by decide

example : pyFloatOfCapture (str "0.85") = some (mkRat 85 100) := by decide

example : pyFloatOfCapture (str ".") = none := by decide

example : pyFloatOfCapture (str "1.2.3") = none := by decide

example : fmt2 (mkRat 85 100) = str "0.85" := by decide

example : fmt2 (mkRat 4 10) = str "0.40" := by decide

example : fmt2 (mkRat 7499 10000) = str "0.75" := by decide

example :
    reSearchCapture (str "Launch Likelihood: ") likChar
      (str "x Launch Likelihood: 0.85/1.0 y") = some (str "0.85") := by decide

/-! ## Environment and collaborator outcomes -/

/-- The environment variables the handlers read (`os.getenv`). -/
structure Env where
  tavilyKey : Option Str
  openaiKey : Option Str
  nimbleKey : Option Str
  slackWebhook : Option Str

/-- One Tavily search result (`{title, url, content}`). -/
structure SearchHit where
  title : Str
  url : Str
  content : Str

/-- Outcome of the Tavily POST inside `_search_tech_sites_handler`. -/
inductive SearchOutcome where
  | exn (msg : Str)
  | httpError (code : Nat)
  | ok (results : List SearchHit)

/-- Outcome of the aiohttp GET inside `_url_extract_handler` (the page
title produced by BeautifulSoup belongs to the excluded markup layer and is
part of the outcome). -/
inductive FetchOutcome where
  | exn (msg : Str)
  | httpError (code : Nat)
  | ok (title contentType html : Str)

/-- Outcome of the Nimble POST inside `_parse_fields_handler`; `ok` carries
the parsed field mapping of the response JSON. -/
inductive ParseOutcome where
  | netExn (msg : Str)
  | exn (msg : Str)
  | httpError (code : Nat) (body : Str)
  | ok (values : List (Str × Str))

/-- An element of the decoded JSON array of the batch scorer response.
`signal_id` is present in the response contract but never read by the
handler. -/
structure BatchEntry where
  signal_id : Option Int
  launch_likelihood : Option ℚ
  confidence : Option Str
  reasoning : Option Str
deriving DecidableEq

/-- Outcome of the OpenAI chat call plus the `json.loads` of its text in
`_batch_score_signals_handler`.  `json.loads` itself is the excluded schema
layer; its possible results are enumerated: a JSON array of objects
(`okJsonArr`), text that is not JSON (`okNonJson`, the handler falls back
to echoing the raw text), or a JSON value of another shape whose traversal
raises and is caught by the generic `except` (`okBadShape`). -/
inductive BatchScoreOutcome where
  | exn (msg : Str)
  | okJsonArr (entries : List BatchEntry)
  | okNonJson (raw : Str)
  | okBadShape (msg : Str)

/-- Outcome of the Slack webhook POST inside `send_slack_alert`. -/
inductive SlackOutcome where
  | exn (msg : Str)
  | status (code : Nat)

/-- An enriched signal dict `{signal_title, signal_text}`. -/
structure Signal where
  signal_title : Str
  signal_text : Str
deriving DecidableEq

/-- The row handed to `store_signal` (the `signal_data` dict; `id` is
assigned by SQLite). -/
structure SignalRecord where
  url : Str
  title : Str
  html_excerpt : Str
  changelog : Str
  pricing : Str
  score : ℚ
  confidence : Str
  reasoning : Str
  created_at : Str
deriving DecidableEq

/-- The payload data of one `send_slack_alert` call, tagged with the index
of the scoring block it came from. -/
structure AlertAttempt where
  idx : Nat
  title : Str
  score : ℚ
  url : Str
  fields : List (Str × Str)
deriving DecidableEq

/-- The only uncaught exception the pipeline body can raise:
`float(...)` on the regex capture. -/
inductive PyExn where
  | valueError (msg : Str)
deriving DecidableEq

def pyExnStr : PyExn → Str
  | .valueError m => m

/-! ## `_search_tech_sites_handler` -/

def techNewsBlock (i : Nat) (h : SearchHit) : Str :=
  str "�� Tech News Result " ++ natToStr i ++ str ":\nTitle: " ++ h.title ++
    str "\nURL: " ++ h.url ++ str "\nSnippet: " ++ h.content ++ str "\n"

/-- `_search_tech_sites_handler`: key check, then the Tavily call outcome,
then formatting of `results[:num_results]` numbered from 1. -/
def searchTechSites (env : Env) (query : Str) (numResults : Int) (o : SearchOutcome) :
    List Str :=
  match env.tavilyKey with
  | none => [str "❌ Error: TAVILY_API_KEY environment variable not set"]
  | some _ =>
    match o with
    | .exn m => [str "❌ Tech sites search failed: " ++ m]
    | .httpError c => [str "❌ Error: Tavily API returned status " ++ natToStr c]
    | .ok results =>
      if results.isEmpty then
        [str "🔍 No results found for query: \x27" ++ query ++ str "\x27 in tech news sites"]
      else
        (pyTake numResults results).enum.map (fun p => techNewsBlock (p.1 + 1) p.2)

/-! ## `_url_extract_handler` (called by the pipeline with parsing_type="html",
so `cleaned_content` is the raw fetched content) -/

def urlExtractHandler (url : Str) (o : FetchOutcome) (now : Str) : List Str :=
  match o with
  | .exn m => [str "❌ URL extraction failed: " ++ m]
  | .httpError c => [str "❌ Error: HTTP " ++ natToStr c ++ str " for URL: " ++ url]
  | .ok title ct html =>
    [str "📄 URL Extraction Results:\n\nURL: " ++ url ++ str "\nTitle: " ++ title ++
      str "\nContent Type: " ++ ct ++ str "\nExtracted At: " ++ now ++
      str "\n\nContent:\n" ++ pyClip 2000 html]

/-! ## `_parse_fields_handler` -/

def parsedFieldLine (values : List (Str × Str)) (f : Str) : Str :=
  pyTitle f ++ str ": " ++ ((values.lookup f).getD (str "No data found")) ++ str "\n"

def parseFieldsHandler (env : Env) (html : Str) (targetFields : List Str)
    (o : ParseOutcome) : List Str :=
  if html.isEmpty then [str "❌ Error: No HTML content provided for parsing"]
  else
    match env.nimbleKey with
    | none =>
      [str "❌ Error: NIMBLE_API_KEY environment variable not set. Please configure your API key."]
    | some _ =>
      match o with
      | .ok values =>
        [str "�� Parsed Fields:\n\n" ++
          (targetFields.map (parsedFieldLine values)).flatten]
      | .httpError c body => [str "❌ Nimble API error " ++ natToStr c ++ str ": " ++ body]
      | .netExn m => [str "❌ Network error: " ++ m]
      | .exn m => [str "❌ Field parsing failed: " ++ m]

/-! ## `_batch_score_signals_handler` -/

def entryTitle (signals : List Signal) (i : Nat) : Str :=
  match signals[i]? with
  | some s => s.signal_title
  | none => str "Signal " ++ natToStr (i + 1)

def entryText (signals : List Signal) (i : Nat) : Str :=
  match signals[i]? with
  | some s => s.signal_text
  | none => []

/-- One formatted per-signal analysis block: `signals[i] if i < len(signals)
else {}` read with `.get` defaults, and the entry's values with their
defaults. -/
def fmtEntryBlock (signals : List Signal) (i : Nat) (e : BatchEntry) : Str :=
  str "🎯 Signal " ++ natToStr (i + 1) ++ str " Analysis:\n\nTitle: " ++
    entryTitle signals i ++ str "\nText Preview: " ++ pyClip 100 (entryText signals i) ++
    str "\n\nLaunch Likelihood: " ++ fmt2 (e.launch_likelihood.getD (mkRat 0 1)) ++
    str "/1.0\nConfidence: " ++ (e.confidence.getD (str "Unknown")) ++
    str "\nReasoning: " ++ (e.reasoning.getD (str "No reasoning provided")) ++ str "\n"

def batchSummaryBlock (entries : List BatchEntry) (now : Str) : Str :=
  str "\n📊 Batch Analysis Summary:\nHigh likelihood signals: " ++
    natToStr (entries.filter
      (fun e => decide (mkRat 7 10 < e.launch_likelihood.getD (mkRat 0 1)))).length ++
    str "/" ++ natToStr entries.length ++ str "\nAnalysis completed at: " ++ now

/-- `_batch_score_signals_handler`: empty check, the 20-signal cap, the key
check, then the scorer outcome.  In the `okJsonArr` case the handler
enumerates the RESPONSE entries (not the submitted signals) and pairs entry
`i` with signal `i` positionally; `signal_id` is ignored. -/
def batchScoreHandler (env : Env) (signals : List Signal) (o : BatchScoreOutcome)
    (now : Str) : List Str :=
  if signals.isEmpty then [str "❌ Error: No signals provided for batch scoring"]
  else if signals.length > 20 then
    [str "❌ Error: Too many signals. Maximum 20 signals per batch."]
  else
    match env.openaiKey with
    | none => [str "❌ Error: OPENAI_API_KEY environment variable not set"]
    | some _ =>
      match o with
      | .exn m => [str "❌ Batch signal scoring failed: " ++ m]
      | .okBadShape m => [str "❌ Batch signal scoring failed: " ++ m]
      | .okNonJson raw =>
        [str "🎯 Batch Signal Analysis Results:\n\nRaw AI Response: " ++ raw ++
          str "\n\nAnalysis completed at: " ++ now]
      | .okJsonArr entries =>
        (entries.enum.map (fun p => fmtEntryBlock signals p.1 p.2)) ++
          [batchSummaryBlock entries now]

/-! ## `send_slack_alert` -/

/-- `send_slack_alert`: returns False without any delivery when the webhook
is unset; otherwise True exactly on a 200 response.  The payload fields are
recorded by the caller in `AlertAttempt`. -/
def sendSlackAlert (webhook : Option Str) (o : SlackOutcome) : Bool :=
  match webhook with
  | none => false
  | some _ =>
    match o with
    | .exn _ => false
    | .status c => c == 200

/-! ## The pipeline coordinator `_run_pipeline_handler` -/

/-- All collaborator outcomes of one pipeline run, indexed by the position
at which the sequential run consumes them. -/
structure PipelineOracle where
  search : SearchOutcome
  fetch : Nat → FetchOutcome
  parse : Nat → ParseOutcome
  batch : BatchScoreOutcome
  storeOk : Nat → Bool
  slack : Nat → SlackOutcome

/-- The combined signal built for URL number `j+1` (lines 862-865). -/
def mkSignal (j : Nat) (url html parsed : Str) : Signal :=
  ⟨str "Stealth Launch Signal " ++ natToStr (j + 1),
   str "URL: " ++ url ++ str "\n\nExtracted Content:\n" ++ html.take 500 ++
     str "...\n\nParsed Fields:\n" ++ parsed⟩

/-- Step 2 of the pipeline: the per-URL loop over `urls[:num_results]`.
The guards that skip a URL when a sub-handler returns no text are
translated as in the source (both sub-handlers in fact always return one
non-empty block, which is proved later). -/
def enrichLoop (env : Env) (targetFields : List Str) (fetch : Nat → FetchOutcome)
    (parse : Nat → ParseOutcome) (now : Str) : List (Nat × Str) → List Signal
  | [] => []
  | (j, url) :: rest =>
    match urlExtractHandler url (fetch j) now with
    | [] => enrichLoop env targetFields fetch parse now rest
    | eb :: _ =>
      if eb.isEmpty then enrichLoop env targetFields fetch parse now rest
      else
        match parseFieldsHandler env eb targetFields (parse j) with
        | [] => enrichLoop env targetFields fetch parse now rest
        | pb :: _ =>
          if pb.isEmpty then enrichLoop env targetFields fetch parse now rest
          else mkSignal j url eb pb :: enrichLoop env targetFields fetch parse now rest

/-- Lines 920-931: fields extracted from the signal text after the LAST
`"Parsed Fields:"` marker; a field is present when
`re.search(rf"{field.title()}: ([^\n]+)")` matches. -/
def extractFieldsFromSignal (targetFields : List Str) (s : Signal) : List (Str × Str) :=
  if sub (str "Parsed Fields:") s.signal_text then
    let fieldsText := pyStrip (afterLastSub (str "Parsed Fields:") s.signal_text)
    targetFields.filterMap (fun f =>
      (reSearchCapture (pyTitle f ++ str ": ") lineChar fieldsText).map
        (fun v => (f, pyStrip v)))
  else []

/-- Lines 933-945: `Confidence`/`Reasoning` extraction from the scoring
block with their defaults. -/
def extractTagged (tag deflt b : Str) : Str :=
  match reSearchCapture (tag ++ str ": ") lineChar b with
  | some v => pyStrip v
  | none => deflt

/-- The context the interpreting loop (step 4) reads. -/
structure InterpCtx where
  enriched : List Signal
  urls : List Str
  targetFields : List Str
  env : Env
  now : Str
  storeOk : Nat → Bool
  slack : Nat → SlackOutcome

/-- The observable effects accumulated by the interpreting loop.
`decoded` mirrors the log line `"Signal {i+1} scored"`, `stored` the rows
handed to `store_signal`, `storeResults` their success flags, `alerts` the
`send_slack_alert` calls, `alertSent` their results, `highConf` the
`high_confidence_signals` list. -/
structure InterpState where
  decoded : List (Nat × ℚ)
  stored : List SignalRecord
  storeResults : List Bool
  alerts : List AlertAttempt
  alertSent : List Bool
  highConf : List Str

def InterpState.empty : InterpState := ⟨[], [], [], [], [], []⟩

/-- The effects of processing one scoring block. -/
structure BlockDelta where
  decoded : List (Nat × ℚ)
  stored : List SignalRecord
  storeResults : List Bool
  alerts : List AlertAttempt
  alertSent : List Bool
  highConf : List Str

def emptyDelta : BlockDelta := ⟨[], [], [], [], [], []⟩

def InterpState.push (st : InterpState) (d : BlockDelta) : InterpState :=
  ⟨st.decoded ++ d.decoded, st.stored ++ d.stored, st.storeResults ++ d.storeResults,
   st.alerts ++ d.alerts, st.alertSent ++ d.alertSent, st.highConf ++ d.highConf⟩

/-- The signal the block at index `i` is matched to
(`enriched_signals[signal_index]`, under the in-range guard). -/
def signalAt (ctx : InterpCtx) (i : Nat) : Signal := ctx.enriched.getD i ⟨[], []⟩

/-- `urls[signal_index] if signal_index < len(urls) else "Unknown URL"`. -/
def urlAt (ctx : InterpCtx) (i : Nat) : Str := ctx.urls.getD i (str "Unknown URL")

/-- The `signal_data` row built for the block at index `i` (lines 948-958). -/
def signalRecordAt (ctx : InterpCtx) (i : Nat) (b : Str) (score : ℚ) : SignalRecord :=
  { url := urlAt ctx i,
    title := (signalAt ctx i).signal_title,
    html_excerpt := (signalAt ctx i).signal_text.take 500,
    changelog :=
      ((extractFieldsFromSignal ctx.targetFields (signalAt ctx i)).lookup
        (str "changelog")).getD [],
    pricing :=
      ((extractFieldsFromSignal ctx.targetFields (signalAt ctx i)).lookup
        (str "pricing")).getD [],
    score := score,
    confidence := extractTagged (str "Confidence") (str "Unknown") b,
    reasoning := extractTagged (str "Reasoning") (str "No reasoning provided") b,
    created_at := ctx.now }

/-- The `send_slack_alert` payload data for the block at index `i`. -/
def alertAt (ctx : InterpCtx) (i : Nat) (score : ℚ) : AlertAttempt :=
  ⟨i, (signalAt ctx i).signal_title, score, urlAt ctx i,
   extractFieldsFromSignal ctx.targetFields (signalAt ctx i)⟩

/-- Effects of a block whose score is decoded, is in range, and crosses the
alert threshold: store, then alert; the signal joins `high_confidence_signals`
only when the alert was actually sent. -/
def alertDelta (ctx : InterpCtx) (i : Nat) (b : Str) (score : ℚ) : BlockDelta :=
  ⟨[(i, score)], [signalRecordAt ctx i b score], [ctx.storeOk i], [alertAt ctx i score],
   [sendSlackAlert ctx.env.slackWebhook (ctx.slack i)],
   if sendSlackAlert ctx.env.slackWebhook (ctx.slack i) then
     [str "Signal " ++ natToStr (i + 1) ++ str " (Score: " ++ fmt2 score ++ str ")"]
   else []⟩

/-- Effects of a decoded in-range block below the threshold: store only. -/
def storeDelta (ctx : InterpCtx) (i : Nat) (b : Str) (score : ℚ) : BlockDelta :=
  ⟨[(i, score)], [signalRecordAt ctx i b score], [ctx.storeOk i], [], [], []⟩

/-- Effects of a decoded block with no matching signal: the score is logged
(decoded) but nothing is stored or alerted. -/
def skipDelta (i : Nat) (score : ℚ) : BlockDelta :=
  ⟨[(i, score)], [], [], [], [], []⟩

/-- Lines 906-994: processing of the scoring block at index `i`.
An unparsable capture raises `ValueError` out of the loop (there is no
local handler around `float`); a block without a capture is skipped. -/
def blockEffect (ctx : InterpCtx) (i : Nat) (b : Str) : Except PyExn BlockDelta :=
  if sub (str "Launch Likelihood:") b then
    match reSearchCapture (str "Launch Likelihood: ") likChar b with
    | some cap =>
      match pyFloatOfCapture cap with
      | none =>
        .error (.valueError (str "could not convert string to float: \x27" ++ cap ++ str "\x27"))
      | some score =>
        if i < ctx.enriched.length then
          if mkRat 3 4 ≤ score then .ok (alertDelta ctx i b score)
          else .ok (storeDelta ctx i b score)
        else .ok (skipDelta i score)
    | none => .ok emptyDelta
  else .ok emptyDelta

/-- Case principle for `blockEffect`: every result is an exception, a
no-op, a decoded-but-unmatched skip, or a store with or without alert. -/
theorem blockEffect_spec (ctx : InterpCtx) (i : Nat) (b : Str)
    (P : Except PyExn BlockDelta → Prop)
    (herr : ∀ e, P (.error e))
    (hempty : P (.ok emptyDelta))
    (hskip : ∀ score, ¬ i < ctx.enriched.length → P (.ok (skipDelta i score)))
    (halert : ∀ score, i < ctx.enriched.length → mkRat 3 4 ≤ score →
      P (.ok (alertDelta ctx i b score)))
    (hstore : ∀ score, i < ctx.enriched.length → ¬ mkRat 3 4 ≤ score →
      P (.ok (storeDelta ctx i b score))) :
    P (blockEffect ctx i b) := by
  unfold blockEffect
  split
  · split
    · split
      · exact herr _
      · split
        · split
          · apply halert <;> assumption
          · apply hstore <;> assumption
        · apply hskip
          assumption
    · exact hempty
  · exact hempty

/-- The interpreting loop; on an exception the run keeps the effects of the
blocks already processed and aborts. -/
def interpretBlocks (ctx : InterpCtx) : Nat → List Str → InterpState →
    InterpState × Option PyExn
  | _, [], st => (st, none)
  | i, b :: bs, st =>
    match blockEffect ctx i b with
    | .error e => (st, some e)
    | .ok d => interpretBlocks ctx (i + 1) bs (st.push d)

/-- What one pipeline run produces: the returned content blocks plus the
observable effects (candidate URLs, enriched signals, the interpreting
state). -/
structure RunOutcome where
  blocks : List Str
  urls : List Str
  enriched : List Signal
  state : InterpState

def joinComma : List Str → Str
  | [] => []
  | [x] => x
  | x :: xs => x ++ str ", " ++ joinComma xs

def headerLit : Str := str "🚀 **Stealth Launch Detection Pipeline Complete**"

/-- Abort message of the empty-query gate (line 790). -/
def mEmptyQuery : Str := str "❌ Error: No search query provided for pipeline"

/-- Abort message of the `not search_results` gate (line 805). -/
def mNoSearch : Str := str "❌ No search results found for the query"

/-- Abort message of the zero-URL gate (line 818). -/
def mNoUrls : Str := str "❌ No URLs found in search results"

/-- Abort message of the zero-enriched-signals gate (line 878). -/
def mNoSignals : Str := str "❌ No signals could be processed successfully"

/-- Abort message of the `not scoring_result` gate (line 893). -/
def mFailScore : Str := str "❌ Failed to score signals"

/-- The outer `except` message prefix (line 1035). -/
def mPipeFail (e : PyExn) : Str := str "❌ Pipeline failed: " ++ pyExnStr e

/-- `_run_pipeline_handler`, lines 776-1036. -/
def runPipeline (queryArg : Str) (numResults : Int) (targetFields : List Str)
    (env : Env) (o : PipelineOracle) (now : Str) : RunOutcome :=
  if queryArg.isEmpty then
    ⟨[mEmptyQuery], [], [], InterpState.empty⟩
  else
    match searchTechSites env queryArg numResults o.search with
    | [] => ⟨[mNoSearch], [], [], InterpState.empty⟩
    | sb :: _ =>
      if sb.isEmpty then
        ⟨[mNoSearch], [], [], InterpState.empty⟩
      else
        let urls := extractUrls sb
        if urls.isEmpty then
          ⟨[mNoUrls], urls, [], InterpState.empty⟩
        else
          let enriched :=
            enrichLoop env targetFields o.fetch o.parse now (pyTake numResults urls).enum
          if enriched.isEmpty then
            ⟨[mNoSignals], urls, enriched, InterpState.empty⟩
          else
            let scoring := batchScoreHandler env enriched o.batch now
            if scoring.isEmpty then
              ⟨[mFailScore], urls, enriched, InterpState.empty⟩
            else
              let ctx : InterpCtx :=
                ⟨enriched, urls, targetFields, env, now, o.storeOk, o.slack⟩
              match interpretBlocks ctx 0 scoring InterpState.empty with
              | (st, some e) =>
                ⟨[mPipeFail e], urls, enriched, st⟩
              | (st, none) =>
                let alertSummary :=
                  if st.highConf.isEmpty then str "\n**High-Confidence Alerts:** None"
                  else
                    str "\n**High-Confidence Alerts:** " ++ natToStr st.highConf.length ++
                      str " signals sent to Slack"
                let header :=
                  headerLit ++ str "\n\n**Query:** " ++ queryArg ++
                    str "\n**URLs Analyzed:** " ++ natToStr enriched.length ++
                    str "\n**Fields Extracted:** " ++ joinComma targetFields ++
                    str "\n**Analysis Time:** " ++ now ++ alertSummary ++ str "\n"
                let signalBlocks := enriched.enum.map (fun p =>
                  str "**Signal " ++ natToStr (p.1 + 1) ++ str ":**\n**URL:** " ++
                    (match urls[p.1]? with
                     | some u => u
                     | none => str "Unknown URL") ++
                    str "\n**Content:** " ++ p.2.signal_text.take 200 ++
                    str "...\n**Status:** Processed and scored\n")
                ⟨header :: (signalBlocks ++ scoring), urls, enriched, st⟩

/-- The decoded scores that positionally correspond to an enriched signal:
per the data model these are the run's ScoredSignals (a decodable block at
an index with no submitted signal is dropped). -/
def matchedDecodes (r : RunOutcome) : List (Nat × ℚ) :=
  r.state.decoded.filter (fun p => decide (p.1 < r.enriched.length))

/-- Modelled from the claim: the source URL a signal was derived from, as
recorded at the head of its composed text (`"URL: {url}\n\n..."`). -/
def claimSourceUrl (s : Signal) : Str :=
  if (str "URL: ").isPrefixOf s.signal_text then
    (s.signal_text.drop 5).takeWhile (fun c => !(c == '\n'))
  else []

/-- Modelled from the claim: the host of an absolute URL, the text between
the scheme separator and the first slash. -/
def claimHostOf (u : Str) : Str :=
  ((afterFirstSub (str "://") u).getD u).takeWhile (fun c => !(c == '/'))

/-- The interpreting context a run builds once its gates have passed. -/
def ctxOf (sb : Str) (n : Int) (tf : List Str) (env : Env) (o : PipelineOracle)
    (now : Str) : InterpCtx :=
  ⟨enrichLoop env tf o.fetch o.parse now (pyTake n (extractUrls sb)).enum,
   extractUrls sb, tf, env, now, o.storeOk, o.slack⟩

/-! ## Generic lemmas about the string machinery -/

theorem sub_of_middle {n h : Str} (hi : n <:+: h) : sub n h = true := by
  obtain ⟨s, t, rfl⟩ := hi
  unfold sub
  rw [List.any_eq_true]
  refine ⟨n ++ t, ?_, ?_⟩
  · rw [List.mem_tails]
    have hassoc : s ++ n ++ t = s ++ (n ++ t) := by simp [List.append_assoc]
    rw [hassoc]
    exact List.suffix_append s (n ++ t)
  · rw [ List.isPrefixOf_iff_prefix]
    exact List.prefix_append n t

theorem foldl_append_if (p : Str → Bool) :
    ∀ (l : List Str) (acc : List Str),
      l.foldl (fun acc u => if p u then acc ++ [u] else acc) acc = acc ++ l.filter p := by
  intro l
  induction l with
  | nil => intro acc; simp
  | cons x xs ih =>
    intro acc
    by_cases h : p x <;> simp [List.filter_cons, h, ih, List.append_assoc]

/-! ## Claim C3: the URL candidate extractor -/

theorem extractUrls_eq (text : Str) :
    extractUrls text = ((scanUrls text).filter isAllowedUrl).take 10 := by
  unfold extractUrls
  rw [foldl_append_if]
  simp

theorem extractUrls_length_le (text : Str) : (extractUrls text).length ≤ 10 := by
  rw [extractUrls_eq]; exact List.length_take_le 10 _

theorem extractUrls_sublist (text : Str) :
    List.Sublist (extractUrls text) (scanUrls text) := by
  rw [extractUrls_eq]
  exact (List.take_sublist _ _).trans (List.filter_sublist _)

/-- C3 (amended): for every input text the extractor returns the first at
most ten scanned URLs that contain an allow-listed domain as a substring
anywhere in the URL, preserving first-seen order; byte-identical duplicates
are retained, and the filter is substring containment, not host matching. -/
theorem extractUrls_firstTen_substringFilter (text : Str) :
    extractUrls text = ((scanUrls text).filter isAllowedUrl).take 10 ∧
    (extractUrls text).length ≤ 10 ∧
    (extractUrls text).all isAllowedUrl = true ∧
    List.Sublist (extractUrls text) (scanUrls text) := by
  refine ⟨extractUrls_eq text, extractUrls_length_le text, ?_, extractUrls_sublist text⟩
  rw [extractUrls_eq, List.all_eq_true]
  intro u hu
  exact List.of_mem_filter ((List.take_sublist 10 _).subset hu)

def c3Text : Str :=
  str "https://evil.example/techcrunch.com x https://techcrunch.com/a https://techcrunch.com/a"

/-- C3 (counterexample): on `c3Text` the extractor keeps a byte-identical
duplicate (so duplicates are NOT removed) and keeps a URL whose host is
`evil.example`, which is not on the allow-list (so the filter is not host
matching). -/
theorem extractUrls_counterexample :
    extractUrls c3Text =
      [str "https://evil.example/techcrunch.com", str "https://techcrunch.com/a",
       str "https://techcrunch.com/a"] ∧
    (extractUrls c3Text).count (str "https://techcrunch.com/a") = 2 ∧
    claimHostOf (str "https://evil.example/techcrunch.com") = str "evil.example" ∧
    ¬ (str "evil.example") ∈ allowedDomains := by decide

/-! ## Concrete fixtures used by witnesses -/

def env0 : Env := ⟨some (str "k"), some (str "k"), some (str "k"), some (str "w")⟩

def hit0 : SearchHit := ⟨str "T", str "https://techcrunch.com/a", str "c"⟩

def now0 : Str := str "20240101T000000"

def fetch0 : Nat → FetchOutcome := fun _ => .ok (str "Ti") (str "text/html") (str "B")

def parse0 : Nat → ParseOutcome := fun _ => .ok [(str "pricing", str "9")]

def oracleWith (b : BatchScoreOutcome) : PipelineOracle :=
  ⟨.ok [hit0], fetch0, parse0, b, fun _ => true, fun _ => .status 200⟩

/-! ## Claim C7: the 20-signal batch cap -/

/-- C7: a batch of more than 20 signals is rejected with the fixed
size-limit error, for every environment and every collaborator outcome —
the result does not depend on the scorer outcome at all, so nothing is
submitted. -/
theorem batchScore_rejects_oversize (env : Env) (signals : List Signal)
    (o : BatchScoreOutcome) (now : Str) (h : 20 < signals.length) :
    batchScoreHandler env signals o now =
      [str "❌ Error: Too many signals. Maximum 20 signals per batch."] := by
  have h0 : signals.isEmpty = false := by
    cases signals with
    | nil => simp at h
    | cons a l => rfl
  unfold batchScoreHandler
  simp [h0, h]

def sig21 : List Signal := List.replicate 21 ⟨str "t", str "x"⟩

theorem batchScore_rejects_oversize_witness :
    20 < sig21.length ∧
    batchScoreHandler env0 sig21 (.okJsonArr []) now0 =
      [str "❌ Error: Too many signals. Maximum 20 signals per batch."] :=
  ⟨by decide, batchScore_rejects_oversize env0 sig21 (.okJsonArr []) now0 (by decide)⟩

/-! ## Claim C1: positional decoding in the batch scoring interpreter -/

/-- C1 (amended): for a batch response decoded as a JSON array, the handler
produces one analysis block per RESPONSE entry plus a summary; block `i` is
always built from response entry `i` paired with submitted signal `i`
(in particular, when the response is shorter than the batch, exactly the
available prefix is decoded, with no error); the pairing is purely
positional — the entry's own `signal_id` label never enters the result, so
a block whose label disagrees with its position is attributed to the signal
at its position rather than dropped. -/
theorem batchScore_positional_decode (env : Env) (key : Str) (signals : List Signal)
    (entries : List BatchEntry) (now : Str)
    (hk : env.openaiKey = some key) (hne : signals ≠ []) (hlen : signals.length ≤ 20) :
    (batchScoreHandler env signals (.okJsonArr entries) now).length = entries.length + 1 ∧
    (∀ i, i < entries.length →
      (batchScoreHandler env signals (.okJsonArr entries) now)[i]? =
        some (fmtEntryBlock signals i (entries.getD i ⟨none, none, none, none⟩))) ∧
    (∀ i e, i < signals.length →
      sub (str "\nTitle: " ++ (signals.getD i ⟨[], []⟩).signal_title ++ str "\nText Preview: ")
          (fmtEntryBlock signals i e) = true ∧
      sub (str "\n\nLaunch Likelihood: " ++
            fmt2 (e.launch_likelihood.getD (mkRat 0 1)) ++ str "/1.0\n")
          (fmtEntryBlock signals i e) = true) := by
  have hne' : signals.isEmpty = false := by
    cases signals with
    | nil => exact absurd rfl hne
    | cons a l => rfl
  have hgt : ¬ (signals.length > 20) := by omega
  have hnd : batchScoreHandler env signals (.okJsonArr entries) now =
      (entries.enum.map (fun p => fmtEntryBlock signals p.1 p.2)) ++
        [batchSummaryBlock entries now] := by
    unfold batchScoreHandler
    simp [hne', hgt, hk]
  refine ⟨?_, ?_, ?_⟩
  · rw [hnd]; simp
  · intro i hi
    have hlm : i < (entries.enum.map (fun p => fmtEntryBlock signals p.1 p.2)).length := by
      simp [hi]
    rw [hnd, List.getElem?_append_left hlm, List.getElem?_map]
    have hie : i < entries.enum.length := by simp [hi]
    rw [List.getElem?_eq_getElem hie]
    simp [List.getElem_enum, List.getD, List.getElem?_eq_getElem hi]
  · intro i e hsi
    have hsome : signals[i]? = some signals[i] := List.getElem?_eq_getElem hsi
    have hT : entryTitle signals i = (signals.getD i ⟨[], []⟩).signal_title := by
      unfold entryTitle
      rw [hsome]
      simp [List.getD, hsome]
    have hsplit1 : str " Analysis:\n\nTitle: " = str " Analysis:\n" ++ str "\nTitle: " := by
      decide
    have hsplit2 : str "/1.0\nConfidence: " = str "/1.0\n" ++ str "Confidence: " := by
      decide
    constructor
    · apply sub_of_middle
      refine ⟨str "🎯 Signal " ++ natToStr (i + 1) ++ str " Analysis:\n",
              pyClip 100 (entryText signals i) ++ str "\n\nLaunch Likelihood: " ++
                fmt2 (e.launch_likelihood.getD (mkRat 0 1)) ++ str "/1.0\nConfidence: " ++
                (e.confidence.getD (str "Unknown")) ++ str "\nReasoning: " ++
                (e.reasoning.getD (str "No reasoning provided")) ++ str "\n", ?_⟩
      unfold fmtEntryBlock
      rw [hsplit1, hT]
      simp [List.append_assoc]
    · apply sub_of_middle
      refine ⟨str "🎯 Signal " ++ natToStr (i + 1) ++ str " Analysis:\n\nTitle: " ++
                entryTitle signals i ++ str "\nText Preview: " ++
                pyClip 100 (entryText signals i),
              str "Confidence: " ++ (e.confidence.getD (str "Unknown")) ++
                str "\nReasoning: " ++ (e.reasoning.getD (str "No reasoning provided")) ++
                str "\n", ?_⟩
      unfold fmtEntryBlock
      rw [hsplit2]
      simp [List.append_assoc]

def c1sigs : List Signal := [⟨str "S1", str "sig one"⟩, ⟨str "S2", str "sig two"⟩]

def c1entries : List BatchEntry := [⟨some 2, some (mkRat 9 10), some (str "High"), some (str "why")⟩]

/-- C1 (counterexample): a single response block labeled `signal_id = 2` is
rendered under the title of signal 1 with that entry's score, and no block
mentions signal 2 — the out-of-order/unmatched block is misattributed
positionally, not dropped. -/
theorem batchScore_misattribution_counterexample :
    (batchScoreHandler env0 c1sigs (.okJsonArr c1entries) now0).length = 2 ∧
    sub (str "Title: S1\n") ((batchScoreHandler env0 c1sigs (.okJsonArr c1entries) now0).getD 0 []) = true ∧
    sub (str "Launch Likelihood: 0.90/1.0") ((batchScoreHandler env0 c1sigs (.okJsonArr c1entries) now0).getD 0 []) = true ∧
    (c1entries.getD 0 ⟨none, none, none, none⟩).signal_id = some 2 ∧
    (batchScoreHandler env0 c1sigs (.okJsonArr c1entries) now0).all
      (fun b => !(sub (str "Title: S2") b)) = true := by decide

theorem batchScore_positional_decode_witness :
    (batchScoreHandler env0 c1sigs (.okJsonArr c1entries) now0).length = c1entries.length + 1 ∧
    (batchScoreHandler env0 c1sigs (.okJsonArr c1entries) now0)[0]? =
      some (fmtEntryBlock c1sigs 0 (c1entries.getD 0 ⟨none, none, none, none⟩)) := by
  have h := batchScore_positional_decode env0 (str "k") c1sigs c1entries now0 rfl
    (by decide) (by decide)
  exact ⟨h.1, h.2.1 0 (by decide)⟩

/-! ## Structure of the enrichment stage -/

theorem append_left_ne_nil {a : Str} (h : a ≠ []) (t : Str) : a ++ t ≠ [] := by
  cases a with
  | nil => exact absurd rfl h
  | cons x xs => simp

/-- `_url_extract_handler` always returns exactly one block with non-empty
text, on every outcome. -/
theorem urlExtract_shape (url : Str) (f : FetchOutcome) (now : Str) :
    ∃ b, urlExtractHandler url f now = [b] ∧ b ≠ [] := by
  cases f with
  | exn m =>
    refine ⟨_, rfl, ?_⟩
    apply append_left_ne_nil
    decide
  | httpError c =>
    refine ⟨_, rfl, ?_⟩
    repeat apply append_left_ne_nil
    decide
  | ok title ct html =>
    refine ⟨_, rfl, ?_⟩
    repeat apply append_left_ne_nil
    decide

/-- `_parse_fields_handler` on non-empty input always returns exactly one
block with non-empty text, on every outcome. -/
theorem parseFields_shape (env : Env) (html : Str) (tf : List Str) (o : ParseOutcome)
    (hh : html ≠ []) : ∃ b, parseFieldsHandler env html tf o = [b] ∧ b ≠ [] := by
  have h0 : html.isEmpty = false := by
    cases html with
    | nil => exact absurd rfl hh
    | cons x xs => rfl
  unfold parseFieldsHandler
  rw [h0]
  simp only [Bool.false_eq_true, if_false]
  cases henv : env.nimbleKey with
  | none =>
    refine ⟨_, rfl, ?_⟩
    decide
  | some k =>
    cases o with
    | ok values =>
      refine ⟨_, rfl, ?_⟩
      apply append_left_ne_nil
      decide
    | httpError c body =>
      refine ⟨_, rfl, ?_⟩
      repeat apply append_left_ne_nil
      decide
    | netExn m =>
      refine ⟨_, rfl, ?_⟩
      apply append_left_ne_nil
      decide
    | exn m =>
      refine ⟨_, rfl, ?_⟩
      apply append_left_ne_nil
      decide

/-- The per-URL loop never skips an item: both sub-handlers always return a
non-empty block, so every processed URL yields exactly one signal, built by
`mkSignal` from that URL. -/
theorem enrichLoop_shape (env : Env) (tf : List Str) (f : Nat → FetchOutcome)
    (p : Nat → ParseOutcome) (now : Str) :
    ∀ l : List (Nat × Str),
      (enrichLoop env tf f p now l).length = l.length ∧
      ∀ k, k < l.length →
        ∃ eb pb, (enrichLoop env tf f p now l).getD k ⟨[], []⟩ =
          mkSignal (l.getD k (0, [])).1 (l.getD k (0, [])).2 eb pb := by
  intro l
  induction l with
  | nil =>
    refine ⟨rfl, ?_⟩
    intro k hk
    simp at hk
  | cons ju rest ih =>
    obtain ⟨j, url⟩ := ju
    obtain ⟨eb, hebEq, hebNe⟩ := urlExtract_shape url (f j) now
    obtain ⟨pb, hpbEq, hpbNe⟩ := parseFields_shape env eb tf (p j) hebNe
    have h1 : eb.isEmpty = false := by
      cases eb with
      | nil => exact absurd rfl hebNe
      | cons x xs => rfl
    have h2 : pb.isEmpty = false := by
      cases pb with
      | nil => exact absurd rfl hpbNe
      | cons x xs => rfl
    have hstep : enrichLoop env tf f p now ((j, url) :: rest) =
        mkSignal j url eb pb :: enrichLoop env tf f p now rest := by
      conv_lhs => rw [enrichLoop]
      rw [hebEq]
      simp only [h1, Bool.false_eq_true, if_false]
      rw [hpbEq]
      simp only [h2, Bool.false_eq_true, if_false]
    constructor
    · rw [hstep]
      simp [ih.1]
    · intro k hk
      cases k with
      | zero => exact ⟨eb, pb, by rw [hstep]; rfl⟩
      | succ m =>
        have hm : m < rest.length := by simpa using hk
        obtain ⟨eb', pb', h'⟩ := ih.2 m hm
        refine ⟨eb', pb', ?_⟩
        rw [hstep]
        simpa using h'

/-! ## Scanned URLs contain no newline (used to read the source URL back
out of a composed signal) -/

theorem tryUrlAt_no_newline {s u r : Str} (h : tryUrlAt s = some (u, r)) :
    ∀ c ∈ u, ¬ c = '\n' := by
  have hlit8 : ∀ c ∈ str "https://", ¬ c = '\n' := by decide
  have hlit7 : ∀ c ∈ str "http://", ¬ c = '\n' := by decide
  unfold tryUrlAt at h
  split at h
  · split at h
    · exact absurd h (by simp)
    · rw [Option.some_inj] at h
      injection h with h1 h2
      subst h1
      intro c hc
      rcases List.mem_append.mp hc with hc | hc
      · exact hlit8 c hc
      · intro hceq
        have ht := List.mem_takeWhile_imp hc
        rw [hceq] at ht
        exact absurd ht (by decide)
  · split at h
    · split at h
      · exact absurd h (by simp)
      · rw [Option.some_inj] at h
        injection h with h1 h2
        subst h1
        intro c hc
        rcases List.mem_append.mp hc with hc | hc
        · exact hlit7 c hc
        · intro hceq
          have ht := List.mem_takeWhile_imp hc
          rw [hceq] at ht
          exact absurd ht (by decide)
    · exact absurd h (by simp)

theorem scanUrlsGo_no_newline :
    ∀ fuel s, ∀ u ∈ scanUrlsGo fuel s, ∀ c ∈ u, ¬ c = '\n' := by
  intro fuel
  induction fuel with
  | zero =>
    intro s u hu
    simp [scanUrlsGo] at hu
  | succ n ih =>
    intro s u hu
    cases s with
    | nil => simp [scanUrlsGo] at hu
    | cons c0 rest =>
      rcases htry : tryUrlAt (c0 :: rest) with _ | ⟨u', r⟩
      · rw [scanUrlsGo, htry] at hu
        exact ih rest u hu
      · rw [scanUrlsGo, htry] at hu
        rcases List.mem_cons.mp hu with rfl | hu
        · exact tryUrlAt_no_newline htry
        · exact ih r u hu

theorem extractUrls_no_newline {t u : Str} (hu : u ∈ extractUrls t) :
    ∀ c ∈ u, ¬ c = '\n' :=
  scanUrlsGo_no_newline t.length t u ((extractUrls_sublist t).subset hu)

/-- Reading the source URL back out of a composed signal: the claim-side
extraction returns exactly the URL the signal was built from, because a
scanned URL contains no newline. -/
theorem claimSourceUrl_mkSignal (j : Nat) (url html parsed : Str)
    (hn : ∀ c ∈ url, ¬ c = '\n') :
    claimSourceUrl (mkSignal j url html parsed) = url := by
  unfold claimSourceUrl mkSignal
  have hassoc : str "URL: " ++ url ++ str "\n\nExtracted Content:\n" ++ html.take 500 ++
      str "...\n\nParsed Fields:\n" ++ parsed =
      str "URL: " ++ (url ++ (str "\n\nExtracted Content:\n" ++ (html.take 500 ++
        (str "...\n\nParsed Fields:\n" ++ parsed)))) := by
    simp [List.append_assoc]
  simp only [hassoc]
  have hpre : (str "URL: ").isPrefixOf
      (str "URL: " ++ (url ++ (str "\n\nExtracted Content:\n" ++ (html.take 500 ++
        (str "...\n\nParsed Fields:\n" ++ parsed))))) = true := by
    rw [ List.isPrefixOf_iff_prefix]
    exact List.prefix_append _ _
  rw [if_pos hpre]
  have hdrop : (str "URL: " ++ (url ++ (str "\n\nExtracted Content:\n" ++ (html.take 500 ++
      (str "...\n\nParsed Fields:\n" ++ parsed))))).drop 5 =
      url ++ (str "\n\nExtracted Content:\n" ++ (html.take 500 ++
        (str "...\n\nParsed Fields:\n" ++ parsed))) :=
    List.drop_left' (by decide)
  rw [hdrop]
  rw [List.takeWhile_append_of_pos ?hall]
  case hall =>
    intro a ha
    simp only [Bool.not_eq_eq_eq_not, Bool.not_true, beq_eq_false_iff_ne]
    exact fun hc => hn a ha hc
  have hcons : str "\n\nExtracted Content:\n" ++ (html.take 500 ++
      (str "...\n\nParsed Fields:\n" ++ parsed)) =
      '\n' :: (str "\nExtracted Content:\n" ++ (html.take 500 ++
        (str "...\n\nParsed Fields:\n" ++ parsed))) := by
    have : str "\n\nExtracted Content:\n" = '\n' :: str "\nExtracted Content:\n" := by decide
    rw [this]
    rfl
  rw [hcons, List.takeWhile_cons_of_neg (by decide)]
  simp

/-! ## Invariants of the interpreting loop -/

theorem blockEffect_ok_balance {ctx : InterpCtx} {i : Nat} {b : Str} {d : BlockDelta}
    (h : blockEffect ctx i b = .ok d) :
    d.stored.length =
      (d.decoded.filter (fun p => decide (p.1 < ctx.enriched.length))).length := by
  revert h
  refine blockEffect_spec ctx i b
    (fun r => r = .ok d →
      d.stored.length =
        (d.decoded.filter (fun p => decide (p.1 < ctx.enriched.length))).length)
    ?_ ?_ ?_ ?_ ?_
  · intro e hEq; simp at hEq
  · intro hEq
    injection hEq with h
    subst h
    simp [emptyDelta]
  · intro score hn hEq
    injection hEq with h
    subst h
    simp [skipDelta, hn]
  · intro score hi hs hEq
    injection hEq with h
    subst h
    simp [alertDelta, hi]
  · intro score hi hs hEq
    injection hEq with h
    subst h
    simp [storeDelta, hi]

/-- The decoded entries of one block all carry that block's index, and
there is at most one of them. -/
theorem blockEffect_ok_decoded_shape {ctx : InterpCtx} {i : Nat} {b : Str} {d : BlockDelta}
    (h : blockEffect ctx i b = .ok d) :
    d.decoded = [] ∨ ∃ s, d.decoded = [(i, s)] := by
  revert h
  refine blockEffect_spec ctx i b
    (fun r => r = .ok d → d.decoded = [] ∨ ∃ s, d.decoded = [(i, s)]) ?_ ?_ ?_ ?_ ?_
  · intro e hEq; simp at hEq
  · intro hEq
    injection hEq with h
    subst h
    exact Or.inl rfl
  · intro score hn hEq
    injection hEq with h
    subst h
    exact Or.inr ⟨score, rfl⟩
  · intro score hi hs hEq
    injection hEq with h
    subst h
    exact Or.inr ⟨score, rfl⟩
  · intro score hi hs hEq
    injection hEq with h
    subst h
    exact Or.inr ⟨score, rfl⟩

theorem blockEffect_ok_stored {ctx : InterpCtx} {i : Nat} {b : Str} {d : BlockDelta}
    (h : blockEffect ctx i b = .ok d) :
    ∀ r ∈ d.stored, r.created_at = ctx.now ∧ i < ctx.enriched.length ∧
      r.url = urlAt ctx i ∧ r.title = (signalAt ctx i).signal_title := by
  revert h
  refine blockEffect_spec ctx i b
    (fun res => res = .ok d →
      ∀ r ∈ d.stored, r.created_at = ctx.now ∧ i < ctx.enriched.length ∧
        r.url = urlAt ctx i ∧ r.title = (signalAt ctx i).signal_title) ?_ ?_ ?_ ?_ ?_
  · intro e hEq; simp at hEq
  · intro hEq
    injection hEq with h
    subst h
    intro r hr
    simp [emptyDelta] at hr
  · intro score hn hEq
    injection hEq with h
    subst h
    intro r hr
    simp [skipDelta] at hr
  · intro score hi hs hEq
    injection hEq with h
    subst h
    intro r hr
    simp only [alertDelta, List.mem_singleton] at hr
    subst hr
    exact ⟨rfl, hi, rfl, rfl⟩
  · intro score hi hs hEq
    injection hEq with h
    subst h
    intro r hr
    simp only [storeDelta, List.mem_singleton] at hr
    subst hr
    exact ⟨rfl, hi, rfl, rfl⟩

theorem blockEffect_ok_alerts_idx {ctx : InterpCtx} {i : Nat} {b : Str} {d : BlockDelta}
    (h : blockEffect ctx i b = .ok d) : ∀ a ∈ d.alerts, a.idx = i := by
  revert h
  refine blockEffect_spec ctx i b
    (fun res => res = .ok d → ∀ a ∈ d.alerts, a.idx = i) ?_ ?_ ?_ ?_ ?_
  · intro e hEq; simp at hEq
  · intro hEq
    injection hEq with h
    subst h
    intro a ha
    simp [emptyDelta] at ha
  · intro score hn hEq
    injection hEq with h
    subst h
    intro a ha
    simp [skipDelta] at ha
  · intro score hi hs hEq
    injection hEq with h
    subst h
    intro a ha
    simp only [alertDelta, List.mem_singleton] at ha
    subst ha
    rfl
  · intro score hi hs hEq
    injection hEq with h
    subst h
    intro a ha
    simp [storeDelta] at ha

/-- Alert counting for one block: a decoded in-range block attempts exactly
one alert when its score reaches 3/4 and none otherwise. -/
theorem blockEffect_ok_alert_count {ctx : InterpCtx} {i : Nat} {b : Str} {d : BlockDelta}
    (h : blockEffect ctx i b = .ok d) :
    ∀ s, d.decoded = [(i, s)] → i < ctx.enriched.length →
      d.alerts.length = if mkRat 3 4 ≤ s then 1 else 0 := by
  revert h
  refine blockEffect_spec ctx i b
    (fun res => res = .ok d →
      ∀ s, d.decoded = [(i, s)] → i < ctx.enriched.length →
        d.alerts.length = if mkRat 3 4 ≤ s then 1 else 0) ?_ ?_ ?_ ?_ ?_
  · intro e hEq; simp at hEq
  · intro hEq
    injection hEq with h
    subst h
    intro s hs
    simp [emptyDelta] at hs
  · intro score hn hEq
    injection hEq with h
    subst h
    intro s hs hi
    exact absurd hi hn
  · intro score hi hsc hEq
    injection hEq with h
    subst h
    intro s hs _
    simp only [alertDelta] at hs ⊢
    injection hs with h1 h2
    injection h1 with h1a h1b
    subst h1b
    rw [if_pos hsc]
    rfl
  · intro score hi hsc hEq
    injection hEq with h
    subst h
    intro s hs _
    simp only [storeDelta] at hs ⊢
    injection hs with h1 h2
    injection h1 with h1a h1b
    subst h1b
    rw [if_neg hsc]
    rfl

theorem push_decoded (st : InterpState) (d : BlockDelta) :
    (st.push d).decoded = st.decoded ++ d.decoded := rfl

theorem push_stored (st : InterpState) (d : BlockDelta) :
    (st.push d).stored = st.stored ++ d.stored := rfl

theorem push_storeResults (st : InterpState) (d : BlockDelta) :
    (st.push d).storeResults = st.storeResults ++ d.storeResults := rfl

theorem push_alerts (st : InterpState) (d : BlockDelta) :
    (st.push d).alerts = st.alerts ++ d.alerts := rfl

theorem push_alertSent (st : InterpState) (d : BlockDelta) :
    (st.push d).alertSent = st.alertSent ++ d.alertSent := rfl

theorem push_highConf (st : InterpState) (d : BlockDelta) :
    (st.push d).highConf = st.highConf ++ d.highConf := rfl

theorem blockEffect_ok_dcount {ctx : InterpCtx} {i : Nat} {b : Str} {d : BlockDelta}
    (h : blockEffect ctx i b = .ok d) :
    (d.decoded.filter (fun p => decide (p.1 < ctx.enriched.length))).length ≤
      if i < ctx.enriched.length then 1 else 0 := by
  rcases blockEffect_ok_decoded_shape h with hd | ⟨s, hd⟩
  · simp [hd]
  · rw [hd]
    by_cases hin : i < ctx.enriched.length
    · simp [hin]
    · simp [hin]

/-- One store attempt happens for exactly each decoded score that matches a
submitted signal (also on runs aborted by an exception: the balance holds
for the state at the abort point). -/
theorem interpret_balance (ctx : InterpCtx) :
    ∀ (bs : List Str) (i : Nat) (st : InterpState),
      (interpretBlocks ctx i bs st).1.stored.length +
        (st.decoded.filter (fun p => decide (p.1 < ctx.enriched.length))).length =
      ((interpretBlocks ctx i bs st).1.decoded.filter
        (fun p => decide (p.1 < ctx.enriched.length))).length + st.stored.length := by
  intro bs
  induction bs with
  | nil =>
    intro i st
    simp [interpretBlocks, Nat.add_comm]
  | cons b rest ih =>
    intro i st
    rw [interpretBlocks]
    rcases hbe : blockEffect ctx i b with e | d
    · simp [Nat.add_comm]
    · simp only []
      have hbal := blockEffect_ok_balance hbe
      have h2 := ih (i + 1) (st.push d)
      simp only [push_decoded, push_stored, List.filter_append, List.length_append] at h2
      omega

/-- The matched decoded scores of a run are bounded by the number of
enriched signals: block indices increase strictly, so at most one decoded
score exists per signal position. -/
theorem interpret_matched_le (ctx : InterpCtx) :
    ∀ (bs : List Str) (i : Nat) (st : InterpState),
      ((interpretBlocks ctx i bs st).1.decoded.filter
        (fun p => decide (p.1 < ctx.enriched.length))).length ≤
      (st.decoded.filter (fun p => decide (p.1 < ctx.enriched.length))).length +
        (ctx.enriched.length - i) := by
  intro bs
  induction bs with
  | nil =>
    intro i st
    simp [interpretBlocks]
  | cons b rest ih =>
    intro i st
    rw [interpretBlocks]
    rcases hbe : blockEffect ctx i b with e | d
    · simp
    · simp only []
      have hd := blockEffect_ok_dcount hbe
      have h2 := ih (i + 1) (st.push d)
      simp only [push_decoded, push_stored, List.filter_append, List.length_append] at h2
      by_cases hin : i < ctx.enriched.length
      · rw [if_pos hin] at hd
        omega
      · rw [if_neg hin] at hd
        omega

/-- Lifting a per-block property of stored rows to the whole loop. -/
theorem interpret_stored_all (ctx : InterpCtx) (P : SignalRecord → Prop)
    (hP : ∀ i b d, blockEffect ctx i b = .ok d → ∀ r ∈ d.stored, P r) :
    ∀ (bs : List Str) (i : Nat) (st : InterpState),
      (∀ r ∈ st.stored, P r) →
      ∀ r ∈ (interpretBlocks ctx i bs st).1.stored, P r := by
  intro bs
  induction bs with
  | nil =>
    intro i st hst
    simpa [interpretBlocks] using hst
  | cons b rest ih =>
    intro i st hst
    rw [interpretBlocks]
    rcases hbe : blockEffect ctx i b with e | d
    · simpa using hst
    · simp only []
      apply ih (i + 1) (st.push d)
      intro r hr
      simp only [push_stored, List.mem_append] at hr
      rcases hr with hr | hr
      · exact hst r hr
      · exact hP i b d hbe r hr

/-! ### Independence of the loop from store success and webhook configuration -/

/-- The effect components other than the store-success flags. -/
def BlockDelta.noStore (d : BlockDelta) :
    List (Nat × ℚ) × List SignalRecord × List AlertAttempt × List Bool × List Str :=
  (d.decoded, d.stored, d.alerts, d.alertSent, d.highConf)

/-- The effect components computed before/independently of alert delivery. -/
def BlockDelta.persist (d : BlockDelta) :
    List (Nat × ℚ) × List SignalRecord × List Bool × List AlertAttempt :=
  (d.decoded, d.stored, d.storeResults, d.alerts)

/-- The store-success flags are recorded but never read: every other
component of a block's effect is the same under any store oracle. -/
theorem blockEffect_storeOk_cong (ctx : InterpCtx) (g : Nat → Bool) (i : Nat) (b : Str) :
    (blockEffect ⟨ctx.enriched, ctx.urls, ctx.targetFields, ctx.env, ctx.now, g, ctx.slack⟩
        i b).map BlockDelta.noStore =
      (blockEffect ctx i b).map BlockDelta.noStore := by
  unfold blockEffect
  split
  · split
    · split
      · rfl
      · split
        · split <;> rfl
        · rfl
    · rfl
  · rfl

/-- The webhook configuration influences only the alert-delivery results,
never what is decoded, stored, or attempted. -/
theorem blockEffect_webhook_cong (ctx : InterpCtx) (w : Option Str) (i : Nat) (b : Str) :
    (blockEffect ⟨ctx.enriched, ctx.urls, ctx.targetFields,
        ⟨ctx.env.tavilyKey, ctx.env.openaiKey, ctx.env.nimbleKey, w⟩,
        ctx.now, ctx.storeOk, ctx.slack⟩ i b).map BlockDelta.persist =
      (blockEffect ctx i b).map BlockDelta.persist := by
  unfold blockEffect
  split
  · split
    · split
      · rfl
      · split
        · split <;> rfl
        · rfl
    · rfl
  · rfl

/-- The state components other than the store-success flags. -/
def stateCore (st : InterpState) :
    List (Nat × ℚ) × List SignalRecord × List AlertAttempt × List Bool × List Str :=
  (st.decoded, st.stored, st.alerts, st.alertSent, st.highConf)

/-- The state components computed independently of alert delivery. -/
def statePersist (st : InterpState) :
    List (Nat × ℚ) × List SignalRecord × List Bool × List AlertAttempt :=
  (st.decoded, st.stored, st.storeResults, st.alerts)

theorem interpret_storeOk_cong (ctx : InterpCtx) (g : Nat → Bool) :
    ∀ (bs : List Str) (i : Nat) (st st' : InterpState), stateCore st = stateCore st' →
      stateCore (interpretBlocks ⟨ctx.enriched, ctx.urls, ctx.targetFields, ctx.env,
          ctx.now, g, ctx.slack⟩ i bs st).1 =
        stateCore (interpretBlocks ctx i bs st').1 ∧
      (interpretBlocks ⟨ctx.enriched, ctx.urls, ctx.targetFields, ctx.env,
          ctx.now, g, ctx.slack⟩ i bs st).2 =
        (interpretBlocks ctx i bs st').2 := by
  intro bs
  induction bs with
  | nil =>
    intro i st st' hcore
    exact ⟨hcore, rfl⟩
  | cons b rest ih =>
    intro i st st' hcore
    have hcong := blockEffect_storeOk_cong ctx g i b
    rw [interpretBlocks, interpretBlocks]
    rcases hbe : blockEffect ctx i b with e | d
    · rw [hbe] at hcong
      rcases hbe' : blockEffect ⟨ctx.enriched, ctx.urls, ctx.targetFields, ctx.env,
          ctx.now, g, ctx.slack⟩ i b with e' | d'
      · rw [hbe'] at hcong
        simp only [Except.map] at hcong
        injection hcong with he
        subst he
        exact ⟨hcore, rfl⟩
      · rw [hbe'] at hcong
        simp [Except.map] at hcong
    · rw [hbe] at hcong
      rcases hbe' : blockEffect ⟨ctx.enriched, ctx.urls, ctx.targetFields, ctx.env,
          ctx.now, g, ctx.slack⟩ i b with e' | d'
      · rw [hbe'] at hcong
        simp [Except.map] at hcong
      · rw [hbe'] at hcong
        simp only [Except.map] at hcong
        injection hcong with hd
        apply ih (i + 1) (st.push d') (st'.push d)
        simp only [stateCore, BlockDelta.noStore, Prod.mk.injEq] at hcore hd ⊢
        simp only [push_decoded, push_stored, push_alerts, push_alertSent, push_highConf]
        exact ⟨by rw [hcore.1, hd.1], by rw [hcore.2.1, hd.2.1],
               by rw [hcore.2.2.1, hd.2.2.1], by rw [hcore.2.2.2.1, hd.2.2.2.1],
               by rw [hcore.2.2.2.2, hd.2.2.2.2]⟩

theorem interpret_webhook_cong (ctx : InterpCtx) (w : Option Str) :
    ∀ (bs : List Str) (i : Nat) (st st' : InterpState), statePersist st = statePersist st' →
      statePersist (interpretBlocks ⟨ctx.enriched, ctx.urls, ctx.targetFields,
          ⟨ctx.env.tavilyKey, ctx.env.openaiKey, ctx.env.nimbleKey, w⟩,
          ctx.now, ctx.storeOk, ctx.slack⟩ i bs st).1 =
        statePersist (interpretBlocks ctx i bs st').1 ∧
      (interpretBlocks ⟨ctx.enriched, ctx.urls, ctx.targetFields,
          ⟨ctx.env.tavilyKey, ctx.env.openaiKey, ctx.env.nimbleKey, w⟩,
          ctx.now, ctx.storeOk, ctx.slack⟩ i bs st).2 =
        (interpretBlocks ctx i bs st').2 := by
  intro bs
  induction bs with
  | nil =>
    intro i st st' hcore
    exact ⟨hcore, rfl⟩
  | cons b rest ih =>
    intro i st st' hcore
    have hcong := blockEffect_webhook_cong ctx w i b
    rw [interpretBlocks, interpretBlocks]
    rcases hbe : blockEffect ctx i b with e | d
    · rw [hbe] at hcong
      rcases hbe' : blockEffect ⟨ctx.enriched, ctx.urls, ctx.targetFields,
          ⟨ctx.env.tavilyKey, ctx.env.openaiKey, ctx.env.nimbleKey, w⟩,
          ctx.now, ctx.storeOk, ctx.slack⟩ i b with e' | d'
      · rw [hbe'] at hcong
        simp only [Except.map] at hcong
        injection hcong with he
        subst he
        exact ⟨hcore, rfl⟩
      · rw [hbe'] at hcong
        simp [Except.map] at hcong
    · rw [hbe] at hcong
      rcases hbe' : blockEffect ⟨ctx.enriched, ctx.urls, ctx.targetFields,
          ⟨ctx.env.tavilyKey, ctx.env.openaiKey, ctx.env.nimbleKey, w⟩,
          ctx.now, ctx.storeOk, ctx.slack⟩ i b with e' | d'
      · rw [hbe'] at hcong
        simp [Except.map] at hcong
      · rw [hbe'] at hcong
        simp only [Except.map] at hcong
        injection hcong with hd
        apply ih (i + 1) (st.push d') (st'.push d)
        simp only [statePersist, BlockDelta.persist, Prod.mk.injEq] at hcore hd ⊢
        simp only [push_decoded, push_stored, push_storeResults, push_alerts]
        exact ⟨by rw [hcore.1, hd.1], by rw [hcore.2.1, hd.2.1],
               by rw [hcore.2.2.1, hd.2.2.1], by rw [hcore.2.2.2, hd.2.2.2]⟩

/-- Alert accounting: every decoded score matched to a signal triggers
exactly one alert attempt when it reaches 3/4 and none otherwise. -/
theorem interpret_alerts (ctx : InterpCtx) :
    ∀ (bs : List Str) (i : Nat) (st : InterpState),
      (∀ p ∈ st.decoded, p.1 < i) →
      (∀ a ∈ st.alerts, a.idx < i) →
      (∀ p ∈ st.decoded, p.1 < ctx.enriched.length →
        (st.alerts.filter (fun a => a.idx == p.1)).length =
          if mkRat 3 4 ≤ p.2 then 1 else 0) →
      ∀ p ∈ (interpretBlocks ctx i bs st).1.decoded, p.1 < ctx.enriched.length →
        (((interpretBlocks ctx i bs st).1.alerts.filter (fun a => a.idx == p.1)).length =
          if mkRat 3 4 ≤ p.2 then 1 else 0) := by
  intro bs
  induction bs with
  | nil =>
    intro i st hdec halt hinv
    simpa [interpretBlocks] using hinv
  | cons b rest ih =>
    intro i st hdec halt hinv
    rw [interpretBlocks]
    rcases hbe : blockEffect ctx i b with e | d
    · simpa using hinv
    · simp only []
      apply ih (i + 1) (st.push d)
      · intro p hp
        simp only [push_decoded, List.mem_append] at hp
        rcases hp with hp | hp
        · exact Nat.lt_succ_of_lt (hdec p hp)
        · rcases blockEffect_ok_decoded_shape hbe with hsh | ⟨s, hsh⟩
          · rw [hsh] at hp; simp at hp
          · rw [hsh] at hp
            simp only [List.mem_singleton] at hp
            subst hp
            exact Nat.lt_succ_self i
      · intro a ha
        simp only [push_alerts, List.mem_append] at ha
        rcases ha with ha | ha
        · exact Nat.lt_succ_of_lt (halt a ha)
        · rw [blockEffect_ok_alerts_idx hbe a ha]
          exact Nat.lt_succ_self i
      · intro p hp hpn
        simp only [push_decoded, List.mem_append] at hp
        simp only [push_alerts, List.filter_append, List.length_append]
        rcases hp with hp | hp
        · have hlt : p.1 < i := hdec p hp
          have hzero : (d.alerts.filter (fun a => a.idx == p.1)).length = 0 := by
            rw [List.length_eq_zero, List.filter_eq_nil_iff]
            intro a ha
            rw [blockEffect_ok_alerts_idx hbe a ha]
            simp
            omega
          rw [hzero, hinv p hp hpn, Nat.add_zero]
        · rcases blockEffect_ok_decoded_shape hbe with hsh | ⟨s, hsh⟩
          · rw [hsh] at hp; simp at hp
          · rw [hsh] at hp
            simp only [List.mem_singleton] at hp
            subst hp
            have hzero : (st.alerts.filter (fun a => a.idx == (i, s).1)).length = 0 := by
              rw [List.length_eq_zero, List.filter_eq_nil_iff]
              intro a ha
              have := halt a ha
              simp
              omega
            rw [hzero, Nat.zero_add]
            have hcnt := blockEffect_ok_alert_count hbe s hsh hpn
            have hall : d.alerts.filter (fun a => a.idx == (i, s).1) = d.alerts := by
              rw [List.filter_eq_self]
              intro a ha
              rw [blockEffect_ok_alerts_idx hbe a ha]
              simp
            rw [hall]
            exact hcnt

/-! ## Decomposition of a pipeline run -/

/-- Every run either aborts before URL extraction (with nothing recorded),
or its candidate URLs come from the first search block, its enriched
signals from the per-URL loop over `urls[:num_results]`, and its state from
the interpreting loop over some block list. -/
theorem runPipeline_decomp (q : Str) (n : Int) (tf : List Str) (env : Env)
    (o : PipelineOracle) (now : Str) :
    ((runPipeline q n tf env o now).urls = [] ∧
     (runPipeline q n tf env o now).enriched = [] ∧
     (runPipeline q n tf env o now).state = InterpState.empty) ∨
    (∃ sb bs,
      (runPipeline q n tf env o now).urls = extractUrls sb ∧
      (runPipeline q n tf env o now).enriched =
        enrichLoop env tf o.fetch o.parse now (pyTake n (extractUrls sb)).enum ∧
      (runPipeline q n tf env o now).state =
        (interpretBlocks (ctxOf sb n tf env o now) 0 bs InterpState.empty).1) := by
  by_cases hq : q.isEmpty
  · have hrun : runPipeline q n tf env o now = ⟨[mEmptyQuery], [], [], InterpState.empty⟩ := by
      unfold runPipeline
      rw [if_pos hq]
    rw [hrun]
    exact Or.inl ⟨rfl, rfl, rfl⟩
  · rcases hE : searchTechSites env q n o.search with _ | ⟨sb, rest⟩
    · have hrun : runPipeline q n tf env o now = ⟨[mNoSearch], [], [], InterpState.empty⟩ := by
        unfold runPipeline
        rw [if_neg hq, hE]
      rw [hrun]
      exact Or.inl ⟨rfl, rfl, rfl⟩
    · by_cases hsb : sb.isEmpty
      · have hrun : runPipeline q n tf env o now = ⟨[mNoSearch], [], [], InterpState.empty⟩ := by
          unfold runPipeline
          rw [if_neg hq, hE]
          simp only [hsb, if_true]
        rw [hrun]
        exact Or.inl ⟨rfl, rfl, rfl⟩
      · by_cases hu : (extractUrls sb).isEmpty
        · have hrun : runPipeline q n tf env o now =
              ⟨[mNoUrls], extractUrls sb, [], InterpState.empty⟩ := by
            unfold runPipeline
            rw [if_neg hq, hE]
            simp only [if_neg hsb, hu, if_true]
          rw [hrun]
          refine Or.inr ⟨sb, [], rfl, ?_, rfl⟩
          rw [List.isEmpty_iff.mp hu]
          simp [pyTake, enrichLoop]
        · by_cases hen : (enrichLoop env tf o.fetch o.parse now
              (pyTake n (extractUrls sb)).enum).isEmpty
          · have hrun : runPipeline q n tf env o now =
                ⟨[mNoSignals], extractUrls sb,
                 enrichLoop env tf o.fetch o.parse now (pyTake n (extractUrls sb)).enum,
                 InterpState.empty⟩ := by
              unfold runPipeline
              rw [if_neg hq, hE]
              simp only [if_neg hsb, if_neg hu, hen, if_true]
            rw [hrun]
            exact Or.inr ⟨sb, [], rfl, rfl, rfl⟩
          · by_cases hsc : (batchScoreHandler env
                (enrichLoop env tf o.fetch o.parse now (pyTake n (extractUrls sb)).enum)
                o.batch now).isEmpty
            · have hrun : runPipeline q n tf env o now =
                  ⟨[mFailScore], extractUrls sb,
                   enrichLoop env tf o.fetch o.parse now (pyTake n (extractUrls sb)).enum,
                   InterpState.empty⟩ := by
                unfold runPipeline
                rw [if_neg hq, hE]
                simp only [if_neg hsb, if_neg hu, if_neg hen, hsc, if_true]
              rw [hrun]
              exact Or.inr ⟨sb, [], rfl, rfl, rfl⟩
            · rcases hI : interpretBlocks (ctxOf sb n tf env o now) 0
                  (batchScoreHandler env
                    (enrichLoop env tf o.fetch o.parse now (pyTake n (extractUrls sb)).enum)
                    o.batch now) InterpState.empty with ⟨st, e?⟩
              cases e? with
              | some e =>
                have hrun : runPipeline q n tf env o now =
                    ⟨[mPipeFail e], extractUrls sb,
                     enrichLoop env tf o.fetch o.parse now (pyTake n (extractUrls sb)).enum,
                     st⟩ := by
                  unfold runPipeline
                  rw [if_neg hq, hE]
                  simp only [if_neg hsb, if_neg hu, if_neg hen, if_neg hsc]
                  rw [show (⟨enrichLoop env tf o.fetch o.parse now
                        (pyTake n (extractUrls sb)).enum, extractUrls sb, tf, env, now,
                        o.storeOk, o.slack⟩ : InterpCtx) = ctxOf sb n tf env o now from rfl, hI]
                rw [hrun]
                refine Or.inr ⟨sb, batchScoreHandler env
                  (enrichLoop env tf o.fetch o.parse now (pyTake n (extractUrls sb)).enum)
                  o.batch now, rfl, rfl, ?_⟩
                rw [hI]
              | none =>
                have hu' : (runPipeline q n tf env o now).urls = extractUrls sb := by
                  unfold runPipeline
                  rw [if_neg hq, hE]
                  simp only [if_neg hsb, if_neg hu, if_neg hen, if_neg hsc]
                  rw [show (⟨enrichLoop env tf o.fetch o.parse now
                        (pyTake n (extractUrls sb)).enum, extractUrls sb, tf, env, now,
                        o.storeOk, o.slack⟩ : InterpCtx) = ctxOf sb n tf env o now from rfl, hI]
                have hen' : (runPipeline q n tf env o now).enriched =
                    enrichLoop env tf o.fetch o.parse now (pyTake n (extractUrls sb)).enum := by
                  unfold runPipeline
                  rw [if_neg hq, hE]
                  simp only [if_neg hsb, if_neg hu, if_neg hen, if_neg hsc]
                  rw [show (⟨enrichLoop env tf o.fetch o.parse now
                        (pyTake n (extractUrls sb)).enum, extractUrls sb, tf, env, now,
                        o.storeOk, o.slack⟩ : InterpCtx) = ctxOf sb n tf env o now from rfl, hI]
                have hst' : (runPipeline q n tf env o now).state = st := by
                  unfold runPipeline
                  rw [if_neg hq, hE]
                  simp only [if_neg hsb, if_neg hu, if_neg hen, if_neg hsc]
                  rw [show (⟨enrichLoop env tf o.fetch o.parse now
                        (pyTake n (extractUrls sb)).enum, extractUrls sb, tf, env, now,
                        o.storeOk, o.slack⟩ : InterpCtx) = ctxOf sb n tf env o now from rfl, hI]
                refine Or.inr ⟨sb, batchScoreHandler env
                  (enrichLoop env tf o.fetch o.parse now (pyTake n (extractUrls sb)).enum)
                  o.batch now, hu', hen', ?_⟩
                rw [hst', hI]

/-! ## Claim C2: the pipeline never raises past its boundary -/

/-- C2: for every input and every collaborator outcome the pipeline hands
back a non-empty block list: one of the five fixed disqualifying messages,
the caught-exception message, or a report headed by the completion header.
No other result shape exists, so no exception escapes the handler. -/
theorem runPipeline_total (q : Str) (n : Int) (tf : List Str) (env : Env)
    (o : PipelineOracle) (now : Str) :
    (runPipeline q n tf env o now).blocks ≠ [] ∧
    ((runPipeline q n tf env o now).blocks = [mEmptyQuery] ∨
     (runPipeline q n tf env o now).blocks = [mNoSearch] ∨
     (runPipeline q n tf env o now).blocks = [mNoUrls] ∨
     (runPipeline q n tf env o now).blocks = [mNoSignals] ∨
     (runPipeline q n tf env o now).blocks = [mFailScore] ∨
     (∃ e, (runPipeline q n tf env o now).blocks = [mPipeFail e]) ∨
     (∃ h t, (runPipeline q n tf env o now).blocks = h :: t ∧ headerLit <+: h)) := by
  by_cases hq : q.isEmpty
  · have hrun : runPipeline q n tf env o now = ⟨[mEmptyQuery], [], [], InterpState.empty⟩ := by
      unfold runPipeline
      rw [if_pos hq]
    rw [hrun]
    exact ⟨by simp, Or.inl rfl⟩
  · rcases hE : searchTechSites env q n o.search with _ | ⟨sb, rest⟩
    · have hrun : runPipeline q n tf env o now = ⟨[mNoSearch], [], [], InterpState.empty⟩ := by
        unfold runPipeline
        rw [if_neg hq, hE]
      rw [hrun]
      exact ⟨by simp, Or.inr (Or.inl rfl)⟩
    · by_cases hsb : sb.isEmpty
      · have hrun : runPipeline q n tf env o now = ⟨[mNoSearch], [], [], InterpState.empty⟩ := by
          unfold runPipeline
          rw [if_neg hq, hE]
          simp only [hsb, if_true]
        rw [hrun]
        exact ⟨by simp, Or.inr (Or.inl rfl)⟩
      · by_cases hu : (extractUrls sb).isEmpty
        · have hrun : runPipeline q n tf env o now =
              ⟨[mNoUrls], extractUrls sb, [], InterpState.empty⟩ := by
            unfold runPipeline
            rw [if_neg hq, hE]
            simp only [if_neg hsb, hu, if_true]
          rw [hrun]
          exact ⟨by simp, Or.inr (Or.inr (Or.inl rfl))⟩
        · by_cases hen : (enrichLoop env tf o.fetch o.parse now
              (pyTake n (extractUrls sb)).enum).isEmpty
          · have hrun : runPipeline q n tf env o now =
                ⟨[mNoSignals], extractUrls sb,
                 enrichLoop env tf o.fetch o.parse now (pyTake n (extractUrls sb)).enum,
                 InterpState.empty⟩ := by
              unfold runPipeline
              rw [if_neg hq, hE]
              simp only [if_neg hsb, if_neg hu, hen, if_true]
            rw [hrun]
            exact ⟨by simp, Or.inr (Or.inr (Or.inr (Or.inl rfl)))⟩
          · by_cases hsc : (batchScoreHandler env
                (enrichLoop env tf o.fetch o.parse now (pyTake n (extractUrls sb)).enum)
                o.batch now).isEmpty
            · have hrun : runPipeline q n tf env o now =
                  ⟨[mFailScore], extractUrls sb,
                   enrichLoop env tf o.fetch o.parse now (pyTake n (extractUrls sb)).enum,
                   InterpState.empty⟩ := by
                unfold runPipeline
                rw [if_neg hq, hE]
                simp only [if_neg hsb, if_neg hu, if_neg hen, hsc, if_true]
              rw [hrun]
              exact ⟨by simp, Or.inr (Or.inr (Or.inr (Or.inr (Or.inl rfl))))⟩
            · rcases hI : interpretBlocks (ctxOf sb n tf env o now) 0
                  (batchScoreHandler env
                    (enrichLoop env tf o.fetch o.parse now (pyTake n (extractUrls sb)).enum)
                    o.batch now) InterpState.empty with ⟨st, e?⟩
              have hb : (runPipeline q n tf env o now).blocks =
                  (match (st, e?) with
                   | (st, some e) =>
                     (⟨[mPipeFail e], extractUrls sb,
                       enrichLoop env tf o.fetch o.parse now (pyTake n (extractUrls sb)).enum,
                       st⟩ : RunOutcome)
                   | (st, none) =>
                     ⟨(headerLit ++ str "\n\n**Query:** " ++ q ++ str "\n**URLs Analyzed:** " ++
                        natToStr (enrichLoop env tf o.fetch o.parse now
                          (pyTake n (extractUrls sb)).enum).length ++
                        str "\n**Fields Extracted:** " ++ joinComma tf ++
                        str "\n**Analysis Time:** " ++ now ++
                        (if st.highConf.isEmpty then str "\n**High-Confidence Alerts:** None"
                         else str "\n**High-Confidence Alerts:** " ++ natToStr st.highConf.length ++
                           str " signals sent to Slack") ++ str "\n") ::
                       ((enrichLoop env tf o.fetch o.parse now
                          (pyTake n (extractUrls sb)).enum).enum.map (fun (p : Nat × Signal) =>
                         str "**Signal " ++ natToStr (p.1 + 1) ++ str ":**\n**URL:** " ++
                           (match (extractUrls sb)[p.1]? with
                            | some u => u
                            | none => str "Unknown URL") ++
                           str "\n**Content:** " ++ p.2.signal_text.take 200 ++
                           str "...\n**Status:** Processed and scored\n") ++
                        batchScoreHandler env
                          (enrichLoop env tf o.fetch o.parse now
                            (pyTake n (extractUrls sb)).enum) o.batch now),
                      extractUrls sb,
                      enrichLoop env tf o.fetch o.parse now (pyTake n (extractUrls sb)).enum,
                      st⟩).blocks := by
                unfold runPipeline
                rw [if_neg hq, hE]
                simp only [if_neg hsb, if_neg hu, if_neg hen, if_neg hsc]
                rw [show (⟨enrichLoop env tf o.fetch o.parse now
                      (pyTake n (extractUrls sb)).enum, extractUrls sb, tf, env, now,
                      o.storeOk, o.slack⟩ : InterpCtx) = ctxOf sb n tf env o now from rfl, hI]
              cases e? with
              | some e =>
                rw [hb]
                exact ⟨by simp, Or.inr (Or.inr (Or.inr (Or.inr (Or.inr (Or.inl ⟨e, rfl⟩)))))⟩
              | none =>
                rw [hb]
                refine ⟨by simp, Or.inr (Or.inr (Or.inr (Or.inr (Or.inr (Or.inr
                  ⟨_, _, rfl, ?_⟩)))))⟩
                simp only [List.append_assoc]
                exact List.prefix_append _ _

/-! ## Run-level independence from the store oracle -/

/-- The store-success oracle influences nothing observable except the
recorded store-success flags: the returned blocks, candidate URLs,
enriched signals, and every other state component are identical under any
store oracle — a write failure never aborts or alters the run. -/
theorem runPipeline_storeOk_cong (q : Str) (n : Int) (tf : List Str) (env : Env)
    (now : Str) (os : SearchOutcome) (ofe : Nat → FetchOutcome) (op : Nat → ParseOutcome)
    (ob : BatchScoreOutcome) (osk g : Nat → Bool) (osl : Nat → SlackOutcome) :
    (runPipeline q n tf env ⟨os, ofe, op, ob, g, osl⟩ now).blocks =
      (runPipeline q n tf env ⟨os, ofe, op, ob, osk, osl⟩ now).blocks ∧
    (runPipeline q n tf env ⟨os, ofe, op, ob, g, osl⟩ now).urls =
      (runPipeline q n tf env ⟨os, ofe, op, ob, osk, osl⟩ now).urls ∧
    (runPipeline q n tf env ⟨os, ofe, op, ob, g, osl⟩ now).enriched =
      (runPipeline q n tf env ⟨os, ofe, op, ob, osk, osl⟩ now).enriched ∧
    stateCore (runPipeline q n tf env ⟨os, ofe, op, ob, g, osl⟩ now).state =
      stateCore (runPipeline q n tf env ⟨os, ofe, op, ob, osk, osl⟩ now).state := by
  by_cases hq : q.isEmpty
  · have hL : runPipeline q n tf env ⟨os, ofe, op, ob, g, osl⟩ now =
        ⟨[mEmptyQuery], [], [], InterpState.empty⟩ := by
      unfold runPipeline
      rw [if_pos hq]
    have hR : runPipeline q n tf env ⟨os, ofe, op, ob, osk, osl⟩ now =
        ⟨[mEmptyQuery], [], [], InterpState.empty⟩ := by
      unfold runPipeline
      rw [if_pos hq]
    rw [hL, hR]
    exact ⟨rfl, rfl, rfl, rfl⟩
  · rcases hE : searchTechSites env q n os with _ | ⟨sb, rest⟩
    · have hL : runPipeline q n tf env ⟨os, ofe, op, ob, g, osl⟩ now =
          ⟨[mNoSearch], [], [], InterpState.empty⟩ := by
        unfold runPipeline
        rw [if_neg hq]
        simp only [hE]
      have hR : runPipeline q n tf env ⟨os, ofe, op, ob, osk, osl⟩ now =
          ⟨[mNoSearch], [], [], InterpState.empty⟩ := by
        unfold runPipeline
        rw [if_neg hq]
        simp only [hE]
      rw [hL, hR]
      exact ⟨rfl, rfl, rfl, rfl⟩
    · by_cases hsb : sb.isEmpty
      · have hL : runPipeline q n tf env ⟨os, ofe, op, ob, g, osl⟩ now =
            ⟨[mNoSearch], [], [], InterpState.empty⟩ := by
          unfold runPipeline
          rw [if_neg hq]
          simp only [hE, hsb, if_true]
        have hR : runPipeline q n tf env ⟨os, ofe, op, ob, osk, osl⟩ now =
            ⟨[mNoSearch], [], [], InterpState.empty⟩ := by
          unfold runPipeline
          rw [if_neg hq]
          simp only [hE, hsb, if_true]
        rw [hL, hR]
        exact ⟨rfl, rfl, rfl, rfl⟩
      · by_cases hu : (extractUrls sb).isEmpty
        · have hL : runPipeline q n tf env ⟨os, ofe, op, ob, g, osl⟩ now =
              ⟨[mNoUrls], extractUrls sb, [], InterpState.empty⟩ := by
            unfold runPipeline
            rw [if_neg hq]
            simp only [hE, if_neg hsb, hu, if_true]
          have hR : runPipeline q n tf env ⟨os, ofe, op, ob, osk, osl⟩ now =
              ⟨[mNoUrls], extractUrls sb, [], InterpState.empty⟩ := by
            unfold runPipeline
            rw [if_neg hq]
            simp only [hE, if_neg hsb, hu, if_true]
          rw [hL, hR]
          exact ⟨rfl, rfl, rfl, rfl⟩
        · by_cases hen : (enrichLoop env tf ofe op now
              (pyTake n (extractUrls sb)).enum).isEmpty
          · have hL : runPipeline q n tf env ⟨os, ofe, op, ob, g, osl⟩ now =
                ⟨[mNoSignals], extractUrls sb,
                 enrichLoop env tf ofe op now (pyTake n (extractUrls sb)).enum,
                 InterpState.empty⟩ := by
              unfold runPipeline
              rw [if_neg hq]
              simp only [hE, if_neg hsb, if_neg hu, hen, if_true]
            have hR : runPipeline q n tf env ⟨os, ofe, op, ob, osk, osl⟩ now =
                ⟨[mNoSignals], extractUrls sb,
                 enrichLoop env tf ofe op now (pyTake n (extractUrls sb)).enum,
                 InterpState.empty⟩ := by
              unfold runPipeline
              rw [if_neg hq]
              simp only [hE, if_neg hsb, if_neg hu, hen, if_true]
            rw [hL, hR]
            exact ⟨rfl, rfl, rfl, rfl⟩
          · by_cases hsc : (batchScoreHandler env
                (enrichLoop env tf ofe op now (pyTake n (extractUrls sb)).enum)
                ob now).isEmpty
            · have hL : runPipeline q n tf env ⟨os, ofe, op, ob, g, osl⟩ now =
                  ⟨[mFailScore], extractUrls sb,
                   enrichLoop env tf ofe op now (pyTake n (extractUrls sb)).enum,
                   InterpState.empty⟩ := by
                unfold runPipeline
                rw [if_neg hq]
                simp only [hE, if_neg hsb, if_neg hu, if_neg hen, hsc, if_true]
              have hR : runPipeline q n tf env ⟨os, ofe, op, ob, osk, osl⟩ now =
                  ⟨[mFailScore], extractUrls sb,
                   enrichLoop env tf ofe op now (pyTake n (extractUrls sb)).enum,
                   InterpState.empty⟩ := by
                unfold runPipeline
                rw [if_neg hq]
                simp only [hE, if_neg hsb, if_neg hu, if_neg hen, hsc, if_true]
              rw [hL, hR]
              exact ⟨rfl, rfl, rfl, rfl⟩
            · -- interpreting stage: relate the two loops
              have hcong := interpret_storeOk_cong
                (⟨enrichLoop env tf ofe op now (pyTake n (extractUrls sb)).enum,
                  extractUrls sb, tf, env, now, osk, osl⟩ : InterpCtx) g
                (batchScoreHandler env
                  (enrichLoop env tf ofe op now (pyTake n (extractUrls sb)).enum) ob now)
                0 InterpState.empty InterpState.empty rfl
              rcases hIL : interpretBlocks
                  (⟨enrichLoop env tf ofe op now (pyTake n (extractUrls sb)).enum,
                    extractUrls sb, tf, env, now, g, osl⟩ : InterpCtx) 0
                  (batchScoreHandler env
                    (enrichLoop env tf ofe op now (pyTake n (extractUrls sb)).enum) ob now)
                  InterpState.empty with ⟨stL, eL⟩
              rcases hIR : interpretBlocks
                  (⟨enrichLoop env tf ofe op now (pyTake n (extractUrls sb)).enum,
                    extractUrls sb, tf, env, now, osk, osl⟩ : InterpCtx) 0
                  (batchScoreHandler env
                    (enrichLoop env tf ofe op now (pyTake n (extractUrls sb)).enum) ob now)
                  InterpState.empty with ⟨stR, eR⟩
              rw [hIL, hIR] at hcong
              have hstc : stateCore stL = stateCore stR := hcong.1
              have hec : eL = eR := hcong.2
              subst hec
              have hL : runPipeline q n tf env ⟨os, ofe, op, ob, g, osl⟩ now =
                  (match (stL, eL) with
                   | (st, some e) =>
                     (⟨[mPipeFail e], extractUrls sb,
                       enrichLoop env tf ofe op now (pyTake n (extractUrls sb)).enum,
                       st⟩ : RunOutcome)
                   | (st, none) =>
                     ⟨(headerLit ++ str "\n\n**Query:** " ++ q ++ str "\n**URLs Analyzed:** " ++
                        natToStr (enrichLoop env tf ofe op now
                          (pyTake n (extractUrls sb)).enum).length ++
                        str "\n**Fields Extracted:** " ++ joinComma tf ++
                        str "\n**Analysis Time:** " ++ now ++
                        (if st.highConf.isEmpty then str "\n**High-Confidence Alerts:** None"
                         else str "\n**High-Confidence Alerts:** " ++
                           natToStr st.highConf.length ++ str " signals sent to Slack") ++
                        str "\n") ::
                       ((enrichLoop env tf ofe op now
                          (pyTake n (extractUrls sb)).enum).enum.map (fun (p : Nat × Signal) =>
                         str "**Signal " ++ natToStr (p.1 + 1) ++ str ":**\n**URL:** " ++
                           (match (extractUrls sb)[p.1]? with
                            | some u => u
                            | none => str "Unknown URL") ++
                           str "\n**Content:** " ++ p.2.signal_text.take 200 ++
                           str "...\n**Status:** Processed and scored\n") ++
                        batchScoreHandler env
                          (enrichLoop env tf ofe op now
                            (pyTake n (extractUrls sb)).enum) ob now),
                      extractUrls sb,
                      enrichLoop env tf ofe op now (pyTake n (extractUrls sb)).enum,
                      st⟩) := by
                unfold runPipeline
                rw [if_neg hq]
                simp only [hE, if_neg hsb, if_neg hu, if_neg hen, if_neg hsc]
                rw [hIL]
              have hR : runPipeline q n tf env ⟨os, ofe, op, ob, osk, osl⟩ now =
                  (match (stR, eL) with
                   | (st, some e) =>
                     (⟨[mPipeFail e], extractUrls sb,
                       enrichLoop env tf ofe op now (pyTake n (extractUrls sb)).enum,
                       st⟩ : RunOutcome)
                   | (st, none) =>
                     ⟨(headerLit ++ str "\n\n**Query:** " ++ q ++ str "\n**URLs Analyzed:** " ++
                        natToStr (enrichLoop env tf ofe op now
                          (pyTake n (extractUrls sb)).enum).length ++
                        str "\n**Fields Extracted:** " ++ joinComma tf ++
                        str "\n**Analysis Time:** " ++ now ++
                        (if st.highConf.isEmpty then str "\n**High-Confidence Alerts:** None"
                         else str "\n**High-Confidence Alerts:** " ++
                           natToStr st.highConf.length ++ str " signals sent to Slack") ++
                        str "\n") ::
                       ((enrichLoop env tf ofe op now
                          (pyTake n (extractUrls sb)).enum).enum.map (fun (p : Nat × Signal) =>
                         str "**Signal " ++ natToStr (p.1 + 1) ++ str ":**\n**URL:** " ++
                           (match (extractUrls sb)[p.1]? with
                            | some u => u
                            | none => str "Unknown URL") ++
                           str "\n**Content:** " ++ p.2.signal_text.take 200 ++
                           str "...\n**Status:** Processed and scored\n") ++
                        batchScoreHandler env
                          (enrichLoop env tf ofe op now
                            (pyTake n (extractUrls sb)).enum) ob now),
                      extractUrls sb,
                      enrichLoop env tf ofe op now (pyTake n (extractUrls sb)).enum,
                      st⟩) := by
                unfold runPipeline
                rw [if_neg hq]
                simp only [hE, if_neg hsb, if_neg hu, if_neg hen, if_neg hsc]
                rw [hIR]
              rw [hL, hR]
              cases eL with
              | some e => exact ⟨rfl, rfl, rfl, hstc⟩
              | none =>
                have hhc : stL.highConf = stR.highConf := by
                  have := hstc
                  simp only [stateCore, Prod.mk.injEq] at this
                  exact this.2.2.2.2
                refine ⟨?_, rfl, rfl, hstc⟩
                simp only [hhc]

/-! ## Run-level independence of persistence from the webhook configuration -/

theorem enrichLoop_webhook (env : Env) (w : Option Str) (tf : List Str)
    (f : Nat → FetchOutcome) (p : Nat → ParseOutcome) (now : Str) :
    ∀ l, enrichLoop ⟨env.tavilyKey, env.openaiKey, env.nimbleKey, w⟩ tf f p now l =
      enrichLoop env tf f p now l := by
  intro l
  induction l with
  | nil => rfl
  | cons ju rest ih =>
    obtain ⟨j, url⟩ := ju
    have hpf : ∀ eb, parseFieldsHandler ⟨env.tavilyKey, env.openaiKey, env.nimbleKey, w⟩
        eb tf (p j) = parseFieldsHandler env eb tf (p j) := fun _ => rfl
    simp only [enrichLoop]
    simp only [hpf, ih]

theorem runPipeline_webhook_cong (q : Str) (n : Int) (tf : List Str) (env : Env)
    (now : Str) (w : Option Str) (os : SearchOutcome) (ofe : Nat → FetchOutcome)
    (op : Nat → ParseOutcome) (ob : BatchScoreOutcome) (osk : Nat → Bool)
    (osl : Nat → SlackOutcome) :
    (runPipeline q n tf ⟨env.tavilyKey, env.openaiKey, env.nimbleKey, w⟩
        ⟨os, ofe, op, ob, osk, osl⟩ now).urls =
      (runPipeline q n tf env ⟨os, ofe, op, ob, osk, osl⟩ now).urls ∧
    (runPipeline q n tf ⟨env.tavilyKey, env.openaiKey, env.nimbleKey, w⟩
        ⟨os, ofe, op, ob, osk, osl⟩ now).enriched =
      (runPipeline q n tf env ⟨os, ofe, op, ob, osk, osl⟩ now).enriched ∧
    statePersist (runPipeline q n tf ⟨env.tavilyKey, env.openaiKey, env.nimbleKey, w⟩
        ⟨os, ofe, op, ob, osk, osl⟩ now).state =
      statePersist (runPipeline q n tf env ⟨os, ofe, op, ob, osk, osl⟩ now).state := by
  have hS : searchTechSites ⟨env.tavilyKey, env.openaiKey, env.nimbleKey, w⟩ q n os =
      searchTechSites env q n os := rfl
  have hEnr := enrichLoop_webhook env w tf ofe op now
  have hB : ∀ sigs, batchScoreHandler ⟨env.tavilyKey, env.openaiKey, env.nimbleKey, w⟩
      sigs ob now = batchScoreHandler env sigs ob now := fun _ => rfl
  by_cases hq : q.isEmpty
  · have hL : runPipeline q n tf ⟨env.tavilyKey, env.openaiKey, env.nimbleKey, w⟩
        ⟨os, ofe, op, ob, osk, osl⟩ now = ⟨[mEmptyQuery], [], [], InterpState.empty⟩ := by
      unfold runPipeline
      rw [if_pos hq]
    have hR : runPipeline q n tf env ⟨os, ofe, op, ob, osk, osl⟩ now =
        ⟨[mEmptyQuery], [], [], InterpState.empty⟩ := by
      unfold runPipeline
      rw [if_pos hq]
    rw [hL, hR]
    exact ⟨rfl, rfl, rfl⟩
  · rcases hE : searchTechSites env q n os with _ | ⟨sb, rest⟩
    · have hL : runPipeline q n tf ⟨env.tavilyKey, env.openaiKey, env.nimbleKey, w⟩
          ⟨os, ofe, op, ob, osk, osl⟩ now = ⟨[mNoSearch], [], [], InterpState.empty⟩ := by
        unfold runPipeline
        rw [if_neg hq]
        simp only [hS, hE]
      have hR : runPipeline q n tf env ⟨os, ofe, op, ob, osk, osl⟩ now =
          ⟨[mNoSearch], [], [], InterpState.empty⟩ := by
        unfold runPipeline
        rw [if_neg hq]
        simp only [hE]
      rw [hL, hR]
      exact ⟨rfl, rfl, rfl⟩
    · by_cases hsb : sb.isEmpty
      · have hL : runPipeline q n tf ⟨env.tavilyKey, env.openaiKey, env.nimbleKey, w⟩
            ⟨os, ofe, op, ob, osk, osl⟩ now = ⟨[mNoSearch], [], [], InterpState.empty⟩ := by
          unfold runPipeline
          rw [if_neg hq]
          simp only [hS, hE, hsb, if_true]
        have hR : runPipeline q n tf env ⟨os, ofe, op, ob, osk, osl⟩ now =
            ⟨[mNoSearch], [], [], InterpState.empty⟩ := by
          unfold runPipeline
          rw [if_neg hq]
          simp only [hE, hsb, if_true]
        rw [hL, hR]
        exact ⟨rfl, rfl, rfl⟩
      · by_cases hu : (extractUrls sb).isEmpty
        · have hL : runPipeline q n tf ⟨env.tavilyKey, env.openaiKey, env.nimbleKey, w⟩
              ⟨os, ofe, op, ob, osk, osl⟩ now =
              ⟨[mNoUrls], extractUrls sb, [], InterpState.empty⟩ := by
            unfold runPipeline
            rw [if_neg hq]
            simp only [hS, hE, if_neg hsb, hu, if_true]
          have hR : runPipeline q n tf env ⟨os, ofe, op, ob, osk, osl⟩ now =
              ⟨[mNoUrls], extractUrls sb, [], InterpState.empty⟩ := by
            unfold runPipeline
            rw [if_neg hq]
            simp only [hE, if_neg hsb, hu, if_true]
          rw [hL, hR]
          exact ⟨rfl, rfl, rfl⟩
        · by_cases hen : (enrichLoop env tf ofe op now
              (pyTake n (extractUrls sb)).enum).isEmpty
          · have hL : runPipeline q n tf ⟨env.tavilyKey, env.openaiKey, env.nimbleKey, w⟩
                ⟨os, ofe, op, ob, osk, osl⟩ now =
                ⟨[mNoSignals], extractUrls sb,
                 enrichLoop env tf ofe op now (pyTake n (extractUrls sb)).enum,
                 InterpState.empty⟩ := by
              unfold runPipeline
              rw [if_neg hq]
              simp only [hS, hE, if_neg hsb, if_neg hu, hEnr, hen, if_true]
            have hR : runPipeline q n tf env ⟨os, ofe, op, ob, osk, osl⟩ now =
                ⟨[mNoSignals], extractUrls sb,
                 enrichLoop env tf ofe op now (pyTake n (extractUrls sb)).enum,
                 InterpState.empty⟩ := by
              unfold runPipeline
              rw [if_neg hq]
              simp only [hE, if_neg hsb, if_neg hu, hen, if_true]
            rw [hL, hR]
            exact ⟨rfl, rfl, rfl⟩
          · by_cases hsc : (batchScoreHandler env
                (enrichLoop env tf ofe op now (pyTake n (extractUrls sb)).enum)
                ob now).isEmpty
            · have hL : runPipeline q n tf ⟨env.tavilyKey, env.openaiKey, env.nimbleKey, w⟩
                  ⟨os, ofe, op, ob, osk, osl⟩ now =
                  ⟨[mFailScore], extractUrls sb,
                   enrichLoop env tf ofe op now (pyTake n (extractUrls sb)).enum,
                   InterpState.empty⟩ := by
                unfold runPipeline
                rw [if_neg hq]
                simp only [hS, hE, if_neg hsb, if_neg hu, hEnr, if_neg hen, hB, hsc, if_true]
              have hR : runPipeline q n tf env ⟨os, ofe, op, ob, osk, osl⟩ now =
                  ⟨[mFailScore], extractUrls sb,
                   enrichLoop env tf ofe op now (pyTake n (extractUrls sb)).enum,
                   InterpState.empty⟩ := by
                unfold runPipeline
                rw [if_neg hq]
                simp only [hE, if_neg hsb, if_neg hu, if_neg hen, hsc, if_true]
              rw [hL, hR]
              exact ⟨rfl, rfl, rfl⟩
            · have hcong := interpret_webhook_cong
                (⟨enrichLoop env tf ofe op now (pyTake n (extractUrls sb)).enum,
                  extractUrls sb, tf, env, now, osk, osl⟩ : InterpCtx) w
                (batchScoreHandler env
                  (enrichLoop env tf ofe op now (pyTake n (extractUrls sb)).enum) ob now)
                0 InterpState.empty InterpState.empty rfl
              rcases hIL : interpretBlocks
                  (⟨enrichLoop env tf ofe op now (pyTake n (extractUrls sb)).enum,
                    extractUrls sb, tf, ⟨env.tavilyKey, env.openaiKey, env.nimbleKey, w⟩,
                    now, osk, osl⟩ : InterpCtx) 0
                  (batchScoreHandler env
                    (enrichLoop env tf ofe op now (pyTake n (extractUrls sb)).enum) ob now)
                  InterpState.empty with ⟨stL, eL⟩
              rcases hIR : interpretBlocks
                  (⟨enrichLoop env tf ofe op now (pyTake n (extractUrls sb)).enum,
                    extractUrls sb, tf, env, now, osk, osl⟩ : InterpCtx) 0
                  (batchScoreHandler env
                    (enrichLoop env tf ofe op now (pyTake n (extractUrls sb)).enum) ob now)
                  InterpState.empty with ⟨stR, eR⟩
              rw [hIL, hIR] at hcong
              have hstc : statePersist stL = statePersist stR := hcong.1
              have hec : eL = eR := hcong.2
              subst hec
              have hL : runPipeline q n tf ⟨env.tavilyKey, env.openaiKey, env.nimbleKey, w⟩
                  ⟨os, ofe, op, ob, osk, osl⟩ now =
                  (match (stL, eL) with
                   | (st, some e) =>
                     (⟨[mPipeFail e], extractUrls sb,
                       enrichLoop env tf ofe op now (pyTake n (extractUrls sb)).enum,
                       st⟩ : RunOutcome)
                   | (st, none) =>
                     ⟨(headerLit ++ str "\n\n**Query:** " ++ q ++ str "\n**URLs Analyzed:** " ++
                        natToStr (enrichLoop env tf ofe op now
                          (pyTake n (extractUrls sb)).enum).length ++
                        str "\n**Fields Extracted:** " ++ joinComma tf ++
                        str "\n**Analysis Time:** " ++ now ++
                        (if st.highConf.isEmpty then str "\n**High-Confidence Alerts:** None"
                         else str "\n**High-Confidence Alerts:** " ++
                           natToStr st.highConf.length ++ str " signals sent to Slack") ++
                        str "\n") ::
                       ((enrichLoop env tf ofe op now
                          (pyTake n (extractUrls sb)).enum).enum.map (fun (p : Nat × Signal) =>
                         str "**Signal " ++ natToStr (p.1 + 1) ++ str ":**\n**URL:** " ++
                           (match (extractUrls sb)[p.1]? with
                            | some u => u
                            | none => str "Unknown URL") ++
                           str "\n**Content:** " ++ p.2.signal_text.take 200 ++
                           str "...\n**Status:** Processed and scored\n") ++
                        batchScoreHandler env
                          (enrichLoop env tf ofe op now
                            (pyTake n (extractUrls sb)).enum) ob now),
                      extractUrls sb,
                      enrichLoop env tf ofe op now (pyTake n (extractUrls sb)).enum,
                      st⟩) := by
                unfold runPipeline
                rw [if_neg hq]
                simp only [hS, hE, if_neg hsb, if_neg hu, hEnr, if_neg hen, hB, if_neg hsc]
                rw [hIL]
              have hR : runPipeline q n tf env ⟨os, ofe, op, ob, osk, osl⟩ now =
                  (match (stR, eL) with
                   | (st, some e) =>
                     (⟨[mPipeFail e], extractUrls sb,
                       enrichLoop env tf ofe op now (pyTake n (extractUrls sb)).enum,
                       st⟩ : RunOutcome)
                   | (st, none) =>
                     ⟨(headerLit ++ str "\n\n**Query:** " ++ q ++ str "\n**URLs Analyzed:** " ++
                        natToStr (enrichLoop env tf ofe op now
                          (pyTake n (extractUrls sb)).enum).length ++
                        str "\n**Fields Extracted:** " ++ joinComma tf ++
                        str "\n**Analysis Time:** " ++ now ++
                        (if st.highConf.isEmpty then str "\n**High-Confidence Alerts:** None"
                         else str "\n**High-Confidence Alerts:** " ++
                           natToStr st.highConf.length ++ str " signals sent to Slack") ++
                        str "\n") ::
                       ((enrichLoop env tf ofe op now
                          (pyTake n (extractUrls sb)).enum).enum.map (fun (p : Nat × Signal) =>
                         str "**Signal " ++ natToStr (p.1 + 1) ++ str ":**\n**URL:** " ++
                           (match (extractUrls sb)[p.1]? with
                            | some u => u
                            | none => str "Unknown URL") ++
                           str "\n**Content:** " ++ p.2.signal_text.take 200 ++
                           str "...\n**Status:** Processed and scored\n") ++
                        batchScoreHandler env
                          (enrichLoop env tf ofe op now
                            (pyTake n (extractUrls sb)).enum) ob now),
                      extractUrls sb,
                      enrichLoop env tf ofe op now (pyTake n (extractUrls sb)).enum,
                      st⟩) := by
                unfold runPipeline
                rw [if_neg hq]
                simp only [hE, if_neg hsb, if_neg hu, if_neg hen, if_neg hsc]
                rw [hIR]
              rw [hL, hR]
              cases eL with
              | some e => exact ⟨rfl, rfl, hstc⟩
              | none => exact ⟨rfl, rfl, hstc⟩

/-! ## Claim C4: the count invariant of one run -/

/-- C4: in every run (aborted ones included) the rows handed to the
persistence sink are in bijection with the decoded scores that matched a
submitted signal; those are at most the enriched signals, which are at most
the candidate URLs, which are at most the extractor cap of 10. -/
theorem runPipeline_count_invariant (q : Str) (n : Int) (tf : List Str) (env : Env)
    (o : PipelineOracle) (now : Str) :
    (runPipeline q n tf env o now).state.stored.length =
      (matchedDecodes (runPipeline q n tf env o now)).length ∧
    (matchedDecodes (runPipeline q n tf env o now)).length ≤
      (runPipeline q n tf env o now).enriched.length ∧
    (runPipeline q n tf env o now).enriched.length ≤
      (runPipeline q n tf env o now).urls.length ∧
    (runPipeline q n tf env o now).urls.length ≤ 10 := by
  rcases runPipeline_decomp q n tf env o now with ⟨hu, he, hs⟩ | ⟨sb, bs, hu, he, hs⟩
  · simp [matchedDecodes, hu, he, hs, InterpState.empty]
  · have hbal := interpret_balance (ctxOf sb n tf env o now) bs 0 InterpState.empty
    have hle := interpret_matched_le (ctxOf sb n tf env o now) bs 0 InterpState.empty
    have hlen := (enrichLoop_shape env tf o.fetch o.parse now
      (pyTake n (extractUrls sb)).enum).1
    have htake : (pyTake n (extractUrls sb)).length ≤ (extractUrls sb).length := by
      unfold pyTake
      exact List.length_take_le' _ _
    simp only [matchedDecodes, hu, he, hs]
    simp only [ctxOf, InterpState.empty, List.filter_nil, List.length_nil, Nat.add_zero,
      Nat.zero_add, Nat.sub_zero, List.length_nil] at hbal hle
    refine ⟨hbal, ?_, ?_, extractUrls_length_le sb⟩
    · exact hle
    · rw [hlen, List.enum_length]
      exact htake

/-! ## Claim C5: the alert threshold and the missing-webhook no-op -/

/-- C5: a decoded score matched to a signal triggers exactly one alert
dispatch when it is at least 0.75 and none below; with no webhook
configured the dispatcher returns False (not sent) without any delivery,
and removing the webhook configuration changes nothing the persistence
sink receives. -/
theorem alert_dispatch_threshold (q : Str) (n : Int) (tf : List Str) (env : Env)
    (o : PipelineOracle) (now : Str) (i : Nat) (s : ℚ)
    (h : (i, s) ∈ matchedDecodes (runPipeline q n tf env o now)) :
    (((runPipeline q n tf env o now).state.alerts.filter
      (fun a => a.idx == i)).length = if mkRat 3 4 ≤ s then 1 else 0) ∧
    (∀ oo : SlackOutcome, sendSlackAlert none oo = false) ∧
    ((runPipeline q n tf ⟨env.tavilyKey, env.openaiKey, env.nimbleKey, none⟩ o now).state.stored
      = (runPipeline q n tf env o now).state.stored) := by
  refine ⟨?_, fun oo => rfl, ?_⟩
  · rcases runPipeline_decomp q n tf env o now with ⟨hu, he, hs⟩ | ⟨sb, bs, hu, he, hs⟩
    · simp [matchedDecodes, hs, InterpState.empty] at h
    · simp only [matchedDecodes, hs, he] at h
      obtain ⟨hmem, hlt⟩ := List.mem_filter.mp h
      have hlt' : (i, s).1 < (ctxOf sb n tf env o now).enriched.length := by
        simpa [ctxOf] using of_decide_eq_true hlt
      have halt := interpret_alerts (ctxOf sb n tf env o now) bs 0 InterpState.empty
        (by intro p hp; simp [InterpState.empty] at hp)
        (by intro a ha; simp [InterpState.empty] at ha)
        (by intro p hp; simp [InterpState.empty] at hp)
        (i, s) hmem hlt'
      rw [hs]
      exact halt
  · have hw := runPipeline_webhook_cong q n tf env now none o.search o.fetch o.parse
      o.batch o.storeOk o.slack
    exact congrArg (fun t => t.2.1) hw.2.2

/-! ## Claim C6: one row per decoded signal, timestamped, failure-tolerant -/

/-- C6: every matched decoded score produces exactly one row handed to the
sink regardless of the alert threshold, every such row carries the run's
timestamp, and the store-success oracle (write success or failure) changes
neither the returned blocks nor the rows nor the alert attempts. -/
theorem store_row_per_decoded (q : Str) (n : Int) (tf : List Str) (env : Env)
    (o : PipelineOracle) (now : Str) (g : Nat → Bool) :
    (runPipeline q n tf env o now).state.stored.length =
      (matchedDecodes (runPipeline q n tf env o now)).length ∧
    (runPipeline q n tf env o now).state.stored.all
      (fun r => r.created_at == now) = true ∧
    (runPipeline q n tf env ⟨o.search, o.fetch, o.parse, o.batch, g, o.slack⟩ now).blocks =
      (runPipeline q n tf env o now).blocks ∧
    (runPipeline q n tf env ⟨o.search, o.fetch, o.parse, o.batch, g, o.slack⟩
      now).state.stored = (runPipeline q n tf env o now).state.stored ∧
    (runPipeline q n tf env ⟨o.search, o.fetch, o.parse, o.batch, g, o.slack⟩
      now).state.alerts = (runPipeline q n tf env o now).state.alerts := by
  have hsc := runPipeline_storeOk_cong q n tf env now o.search o.fetch o.parse o.batch
    o.storeOk g o.slack
  refine ⟨?_, ?_, hsc.1, congrArg (fun t => t.2.1) hsc.2.2.2,
    congrArg (fun t => t.2.2.1) hsc.2.2.2⟩
  · rcases runPipeline_decomp q n tf env o now with ⟨hu, he, hs⟩ | ⟨sb, bs, hu, he, hs⟩
    · simp [matchedDecodes, hu, he, hs, InterpState.empty]
    · have hbal := interpret_balance (ctxOf sb n tf env o now) bs 0 InterpState.empty
      simp only [matchedDecodes, hu, he, hs]
      simp only [ctxOf, InterpState.empty, List.filter_nil, List.length_nil, Nat.add_zero,
        Nat.zero_add] at hbal
      exact hbal
  · rcases runPipeline_decomp q n tf env o now with ⟨hu, he, hs⟩ | ⟨sb, bs, hu, he, hs⟩
    · simp [hs, InterpState.empty]
    · rw [hs, List.all_eq_true]
      intro r hr
      have hP : ∀ (i : Nat) (b : Str) (d : BlockDelta),
          blockEffect (ctxOf sb n tf env o now) i b = .ok d →
          ∀ rr ∈ d.stored, rr.created_at = now := by
        intro i b d hbe rr hrr
        exact (blockEffect_ok_stored hbe rr hrr).1
      have := interpret_stored_all (ctxOf sb n tf env o now)
        (fun rr => rr.created_at = now) hP bs 0 InterpState.empty
        (by intro rr hrr; simp [InterpState.empty] at hrr) r hr
      rw [beq_iff_eq]
      exact this

/-! ## Claim C10: the stored URL is the signal's source URL -/

/-- Reading the composed signal at position `i` of the enrichment loop
output gives back candidate URL `i`: positions never shift, because no URL
is ever skipped. -/
theorem enriched_get_source (env : Env) (tf : List Str) (fe : Nat → FetchOutcome)
    (pa : Nat → ParseOutcome) (now sb : Str) (n : Int) (i : Nat)
    (hi : i < (enrichLoop env tf fe pa now (pyTake n (extractUrls sb)).enum).length) :
    claimSourceUrl ((enrichLoop env tf fe pa now
        (pyTake n (extractUrls sb)).enum).get ⟨i, hi⟩) =
      (extractUrls sb).getD i (str "Unknown URL") ∧
    ((enrichLoop env tf fe pa now (pyTake n (extractUrls sb)).enum).get
      ⟨i, hi⟩).signal_title = str "Stealth Launch Signal " ++ natToStr (i + 1) := by
  have hshape := enrichLoop_shape env tf fe pa now (pyTake n (extractUrls sb)).enum
  have hiL : i < ((pyTake n (extractUrls sb)).enum).length := by
    rw [← hshape.1]
    exact hi
  have hiT : i < (pyTake n (extractUrls sb)).length := by
    rw [← List.enum_length]
    exact hiL
  have hiU : i < (extractUrls sb).length := by
    have : (pyTake n (extractUrls sb)).length ≤ (extractUrls sb).length := by
      unfold pyTake
      exact List.length_take_le' _ _
    omega
  obtain ⟨eb, pb, hget⟩ := hshape.2 i hiL
  have hgetE : (enrichLoop env tf fe pa now (pyTake n (extractUrls sb)).enum).get ⟨i, hi⟩ =
      (enrichLoop env tf fe pa now (pyTake n (extractUrls sb)).enum).getD i ⟨[], []⟩ := by
    simp [List.getD, List.getElem?_eq_getElem hi]
  have hpair : ((pyTake n (extractUrls sb)).enum).getD i (0, []) =
      (i, (pyTake n (extractUrls sb))[i]) := by
    simp [List.getD, List.getElem?_eq_getElem hiL, List.getElem_enum]
  have htakeget : (pyTake n (extractUrls sb))[i] = (extractUrls sb)[i] := by
    unfold pyTake
    exact List.getElem_take ..
  have hmem : (extractUrls sb)[i] ∈ extractUrls sb := List.getElem_mem hiU
  have hnn : ∀ c ∈ (extractUrls sb)[i], ¬ c = '\n' := extractUrls_no_newline hmem
  have hgetD : (extractUrls sb).getD i (str "Unknown URL") = (extractUrls sb)[i] := by
    simp [List.getD, List.getElem?_eq_getElem hiU]
  rw [hgetE, hget, hpair, htakeget, hgetD]
  exact ⟨claimSourceUrl_mkSignal i _ eb pb hnn, rfl⟩

/-- C10: every row the run hands to the sink records exactly the source
URL of the enriched signal it was derived from (the one whose composed
text begins `"URL: {source}"`), together with that signal's title. -/
theorem stored_url_matches_source (q : Str) (n : Int) (tf : List Str) (env : Env)
    (o : PipelineOracle) (now : Str) :
    ∀ r ∈ (runPipeline q n tf env o now).state.stored,
      ∃ i, ∃ hi : i < (runPipeline q n tf env o now).enriched.length,
        r.title = ((runPipeline q n tf env o now).enriched.get ⟨i, hi⟩).signal_title ∧
        r.url = claimSourceUrl ((runPipeline q n tf env o now).enriched.get ⟨i, hi⟩) := by
  intro r hr
  rcases runPipeline_decomp q n tf env o now with ⟨hu, he, hs⟩ | ⟨sb, bs, hu, he, hs⟩
  · rw [hs] at hr
    simp [InterpState.empty] at hr
  · rw [hs] at hr
    have hP : ∀ (i : Nat) (b : Str) (d : BlockDelta),
        blockEffect (ctxOf sb n tf env o now) i b = .ok d →
        ∀ rr ∈ d.stored,
          ∃ i2, i2 < (ctxOf sb n tf env o now).enriched.length ∧
            rr.url = urlAt (ctxOf sb n tf env o now) i2 ∧
            rr.title = (signalAt (ctxOf sb n tf env o now) i2).signal_title := by
      intro i b d hbe rr hrr
      obtain ⟨hc, hlen, hurl, htitle⟩ := blockEffect_ok_stored hbe rr hrr
      exact ⟨i, hlen, hurl, htitle⟩
    obtain ⟨i, hlen, hurl, htitle⟩ := interpret_stored_all (ctxOf sb n tf env o now)
      (fun rr => ∃ i2, i2 < (ctxOf sb n tf env o now).enriched.length ∧
        rr.url = urlAt (ctxOf sb n tf env o now) i2 ∧
        rr.title = (signalAt (ctxOf sb n tf env o now) i2).signal_title)
      hP bs 0 InterpState.empty
      (by intro rr hrr; simp [InterpState.empty] at hrr) r hr
    have hlen' : i < (enrichLoop env tf o.fetch o.parse now
        (pyTake n (extractUrls sb)).enum).length := by
      simpa [ctxOf] using hlen
    have hsrc := enriched_get_source env tf o.fetch o.parse now sb n i hlen'
    have hi2 : i < (runPipeline q n tf env o now).enriched.length := by
      rw [he]
      exact hlen'
    have hEg : (runPipeline q n tf env o now).enriched.get ⟨i, hi2⟩ =
        (enrichLoop env tf o.fetch o.parse now
          (pyTake n (extractUrls sb)).enum).get ⟨i, hlen'⟩ :=
      List.get_of_eq he ⟨i, hi2⟩
    have hsig : signalAt (ctxOf sb n tf env o now) i =
        (enrichLoop env tf o.fetch o.parse now
          (pyTake n (extractUrls sb)).enum).get ⟨i, hlen'⟩ := by
      simp [signalAt, ctxOf, List.getD, List.getElem?_eq_getElem hlen']
    refine ⟨i, hi2, ?_, ?_⟩
    · rw [htitle, hsig, hEg]
    · rw [hurl]
      have hcv : urlAt (ctxOf sb n tf env o now) i =
          (extractUrls sb).getD i (str "Unknown URL") := by
        simp [urlAt, ctxOf]
      rw [hcv, ← hsrc.1, hEg]

/-! ## Concrete runs for witnesses, code-bug evidence and counterexamples -/

def oC5a : PipelineOracle :=
  oracleWith (.okJsonArr [⟨some 1, some (mkRat 85 100), some (str "High"), some (str "r")⟩])

def oC5b : PipelineOracle := oracleWith (.okNonJson (str "Launch Likelihood: 0.7499"))

theorem alert_dispatch_threshold_witness :
    (((runPipeline (str "q") 5 [str "pricing"] env0 oC5a now0).state.alerts.filter
      (fun a => a.idx == 0)).length = 1) ∧
    (((runPipeline (str "q") 5 [str "pricing"] env0 oC5b now0).state.alerts.filter
      (fun a => a.idx == 0)).length = 0) ∧
    (∀ oo : SlackOutcome, sendSlackAlert none oo = false) ∧
    ((runPipeline (str "q") 5 [str "pricing"]
        ⟨env0.tavilyKey, env0.openaiKey, env0.nimbleKey, none⟩ oC5a now0).state.stored =
      (runPipeline (str "q") 5 [str "pricing"] env0 oC5a now0).state.stored) := by
  have h1 := alert_dispatch_threshold (str "q") 5 [str "pricing"] env0 oC5a now0 0
    (mkRat 85 100) (by decide)
  have h2 := alert_dispatch_threshold (str "q") 5 [str "pricing"] env0 oC5b now0 0
    (mkRat 7499 10000) (by decide)
  refine ⟨?_, ?_, h1.2.1, h1.2.2⟩
  · have hx := h1.1
    rwa [if_pos (by decide)] at hx
  · have hx := h2.1
    rwa [if_neg (by decide)] at hx

/-! ## Claim C8: an unparsable captured likelihood aborts the whole run -/

def oC8 : PipelineOracle := oracleWith (.okNonJson (str "Launch Likelihood: ."))

/-- C8 (code-bug evidence): when the likelihood regex captures `"."` —
reachable through the non-JSON fallback block — `float` raises and the
exception propagates to the outer handler: the whole run returns the
failure message and nothing is stored, instead of skipping that one block
and continuing (enriched signals did exist in this run). -/
theorem decode_failure_aborts_run :
    (runPipeline (str "q") 5 [str "pricing"] env0 oC8 now0).blocks =
      [str "❌ Pipeline failed: could not convert string to float: \x27.\x27"] ∧
    (runPipeline (str "q") 5 [str "pricing"] env0 oC8 now0).state.stored = [] ∧
    (runPipeline (str "q") 5 [str "pricing"] env0 oC8 now0).enriched ≠ [] := by decide

/-! ## Claim C9: the disqualifying gates and their messages -/

def oC9v : PipelineOracle := oracleWith (.okNonJson (str "no scores in this text"))

/-- C9 (amended): the empty-query, zero-URL and zero-enriched-signal gates
abort with three pairwise distinct messages; a run whose search yields
zero hits falls through to the zero-URL message (the dedicated
zero-search-results message is not produced on that path), and a run with
zero decoded scores produces the normal completion report, not an abort. -/
theorem distinct_abort_messages :
    (∀ (n : Int) (tf : List Str) (env : Env) (o : PipelineOracle) (now : Str),
      (runPipeline [] n tf env o now).blocks = [mEmptyQuery]) ∧
    (∀ (q : Str) (n : Int) (tf : List Str) (env : Env) (o : PipelineOracle) (now : Str)
      (sb : Str) (rest : List Str), ¬ q.isEmpty = true →
      searchTechSites env q n o.search = sb :: rest → ¬ sb.isEmpty = true →
      (extractUrls sb).isEmpty = true →
      (runPipeline q n tf env o now).blocks = [mNoUrls]) ∧
    (∀ (q : Str) (n : Int) (tf : List Str) (env : Env) (o : PipelineOracle) (now : Str)
      (sb : Str) (rest : List Str), ¬ q.isEmpty = true →
      searchTechSites env q n o.search = sb :: rest → ¬ sb.isEmpty = true →
      ¬ (extractUrls sb).isEmpty = true →
      (enrichLoop env tf o.fetch o.parse now (pyTake n (extractUrls sb)).enum).isEmpty = true →
      (runPipeline q n tf env o now).blocks = [mNoSignals]) ∧
    (mEmptyQuery ≠ mNoUrls ∧ mEmptyQuery ≠ mNoSignals ∧ mNoUrls ≠ mNoSignals) ∧
    ((runPipeline (str "q") 5 [str "pricing"] env0 oC9v now0).state.decoded = [] ∧
      (runPipeline (str "q") 5 [str "pricing"] env0 oC9v now0).blocks ≠ [] ∧
      headerLit <+:
        ((runPipeline (str "q") 5 [str "pricing"] env0 oC9v now0).blocks.headD [])) := by
  refine ⟨?_, ?_, ?_, by decide, by decide⟩
  · intro n tf env o now
    rfl
  · intro q n tf env o now sb rest hq hE hsb hu
    unfold runPipeline
    rw [if_neg hq, hE]
    simp only [if_neg hsb, hu, if_true]
  · intro q n tf env o now sb rest hq hE hsb hu hen
    unfold runPipeline
    rw [if_neg hq, hE]
    simp only [if_neg hsb, if_neg hu, hen, if_true]

def oZeroHits : PipelineOracle :=
  ⟨.ok [], fetch0, parse0, .okNonJson (str "x"), fun _ => true, fun _ => .status 200⟩

def hitNoUrl : SearchHit := ⟨str "T", str "https://example.org/a", str "c"⟩

def oNoAllowedUrl : PipelineOracle :=
  ⟨.ok [hitNoUrl], fetch0, parse0, .okNonJson (str "x"), fun _ => true, fun _ => .status 200⟩

def oC9x : PipelineOracle := oracleWith (.okNonJson (str "nothing to decode"))

/-- C9 (counterexample): a run whose search returns zero hits aborts with
exactly the same message as a run whose hits contain no allow-listed URL —
the zero-search-results condition has no distinct message — and a run with
zero decoded scores returns the normal header-led report rather than any
abort message. -/
theorem zero_results_message_counterexample :
    (runPipeline (str "q") 5 [str "pricing"] env0 oZeroHits now0).blocks = [mNoUrls] ∧
    (runPipeline (str "q") 5 [str "pricing"] env0 oNoAllowedUrl now0).blocks = [mNoUrls] ∧
    (runPipeline (str "q") 5 [str "pricing"] env0 oC9x now0).state.decoded = [] ∧
    headerLit <+:
      ((runPipeline (str "q") 5 [str "pricing"] env0 oC9x now0).blocks.headD []) := by
  decide

def oTwoHits : PipelineOracle :=
  ⟨.ok [hit0, hit0], fetch0, parse0, .okNonJson (str "x"), fun _ => true, fun _ => .status 200⟩

theorem distinct_abort_messages_witness :
    (runPipeline [] 5 [str "pricing"] env0 oC9x now0).blocks = [mEmptyQuery] ∧
    (runPipeline (str "q") 5 [str "pricing"] env0 oNoAllowedUrl now0).blocks = [mNoUrls] ∧
    (runPipeline (str "q") (-1) [str "pricing"] env0 oTwoHits now0).blocks = [mNoSignals] := by
  have h := distinct_abort_messages
  refine ⟨h.1 5 [str "pricing"] env0 oC9x now0, ?_, ?_⟩
  · exact h.2.1 (str "q") 5 [str "pricing"] env0 oNoAllowedUrl now0
      (techNewsBlock 1 hitNoUrl) [] (by decide) (by decide) (by decide) (by decide)
  · exact h.2.2.1 (str "q") (-1) [str "pricing"] env0 oTwoHits now0
      (techNewsBlock 1 hit0) [] (by decide) (by decide) (by decide) (by decide) (by decide)

def oC10 : PipelineOracle :=
  oracleWith (.okJsonArr [⟨some 1, some (mkRat 4 10), some (str "Low"), some (str "r")⟩])

def dRec : SignalRecord := ⟨[], [], [], [], [], mkRat 0 1, [], [], []⟩

theorem stored_url_matches_source_witness :
    ∃ i, ∃ hi : i < (runPipeline (str "q") 5 [str "pricing"] env0 oC10 now0).enriched.length,
      ((runPipeline (str "q") 5 [str "pricing"] env0 oC10 now0).state.stored.getD 0 dRec).title =
        ((runPipeline (str "q") 5 [str "pricing"] env0 oC10 now0).enriched.get
          ⟨i, hi⟩).signal_title ∧
      ((runPipeline (str "q") 5 [str "pricing"] env0 oC10 now0).state.stored.getD 0 dRec).url =
        claimSourceUrl ((runPipeline (str "q") 5 [str "pricing"] env0 oC10 now0).enriched.get
          ⟨i, hi⟩) :=
  stored_url_matches_source (str "q") 5 [str "pricing"] env0 oC10 now0
    ((runPipeline (str "q") 5 [str "pricing"] env0 oC10 now0).state.stored.getD 0 dRec)
    (by decide)
